import Mathlib

/-!
# Blog post page (`pages/blog/[slug].js`): build-time data loading and rendering

JavaScript strings are embedded as `String`; the character-level algorithms
(`endsWith`, `startsWith`, `replace`, `split`) work on the character list
`String.data`.  Every character the regular expressions of the page discriminate on
(`.`, `m`, `d`, `<`, `>`, white space) is a single UTF-16 code unit, so reading the
string as a list of code points gives the same matches and the same token counts.

The values of the front matter are arbitrary JavaScript values (`JsValue`), and
`getStaticProps` passes them on as `||` does.  The component is embedded for props whose
optional fields are strings or absent, as in the data model of the specification: such a
field is an `Option String`, where `none` stands for `undefined`/`null`, `some ""` for the
empty string, and both are falsy.

The blog directory is a list of named files in enumeration order, inside a host that
gives the working directory and the files elsewhere.  The libraries the page
calls (`matter`, `marked`, `format` of the date library) are parameters; code that can
throw returns `Except`.  Numbers are rationals, and the one division of the page is
rounded to binary64 as the language does.
-/

namespace Blog


/-! ## Values and errors -/

/-- Exceptions that abort the build of a page. -/
inductive BuildError
  | enoent (path : String)
  | invalidDate (date : String)
  deriving DecidableEq, Repr

/-- JavaScript truthiness of a value that is a string, `null` or `undefined`. -/
def truthy : Option String → Bool
  | some s => s != ""
  | none => false

/-- The expression `a || b` on values that are strings, `null` or `undefined`. -/
def jsOr (a b : Option String) : Option String :=
  if truthy a then a else b

/-- A JavaScript value as the front-matter parser can return it for a key: `undefined`
for a key that is not there, and for a key that is there the value of its YAML node: `null`,
a boolean, a number (finite, `NaN` or an infinity), a string, or an object such as the
`Date` of an unquoted date, an array or a mapping, of which only a description is kept. -/
inductive JsValue
  | undefined
  | null
  | bool (b : Bool)
  | number (x : ℚ)
  | nan
  | infinity (negative : Bool)
  | str (s : String)
  | object (description : String)
  deriving DecidableEq, Repr

/-- JavaScript truthiness: `undefined`, `null`, `false`, `0`, `NaN` and `''` are falsy,
every other value is truthy. -/
def JsValue.truthy : JsValue → Bool
  | .undefined => false
  | .null => false
  | .bool b => b
  | .number x => x != 0
  | .nan => false
  | .infinity _ => true
  | .str s => s != ""
  | .object _ => true

/-- The expression `a || b` on arbitrary values. -/
def JsValue.or (a b : JsValue) : JsValue :=
  if a.truthy then a else b

/-! ## The blog directory -/

/-- The directory `blog/`: its entries in enumeration order, each a file name with the
file's content. -/
abbrev BlogDir := List (String × String)

/-- The call `fs.readdirSync(blogDir)`. -/
def readdirSync (dir : BlogDir) : List String :=
  dir.map Prod.fst

/-- The pieces of a path between its separators `/`; `cur` holds the piece being read,
reversed. -/
def splitSlashAux (cur : List Char) : List Char → List String
  | [] => [⟨cur.reverse⟩]
  | c :: cs =>
    if c = '/' then ⟨cur.reverse⟩ :: splitSlashAux [] cs else splitSlashAux (c :: cur) cs

/-- The pieces of a path between its separators `/`. -/
def splitSlash (path : String) : List String :=
  splitSlashAux [] path.data

/-- The POSIX `path.normalize` of the pieces of a relative path appended to the absolute
directory `base`, both as lists of segments: an empty piece and `.` are dropped, `..`
drops the last segment so far (none at the root), any other piece is appended. -/
def normalizeOnto (base : List String) : List String → List String
  | [] => base
  | piece :: rest =>
    if piece = "" ∨ piece = "." then normalizeOnto base rest
    else if piece = ".." then normalizeOnto base.dropLast rest
    else normalizeOnto (base ++ [piece]) rest

/-- The host of the build: the segments of the absolute path `process.cwd()`, and the
read of a file at an absolute, normalised path that is not an entry of `blog/`. -/
structure Host where
  cwd : List String
  readOutside : List String → Except BuildError String

/-- The expression `path.join(process.cwd(), 'blog')`, as segments. -/
def blogDirPath (host : Host) : List String :=
  host.cwd ++ ["blog"]

/-- The call `fs.readFileSync(path.join(blogDir, name), 'utf-8')`.  A directory entry is
named by one path segment other than `.` and `..`, which `path.join` keeps as it is, so a
name found in the listing is that entry.  Any other name is normalised: when the path is
`blogDir` followed by one segment, that segment is looked up in the listing, and the read
throws when no entry has it; every other path is read from the rest of the host. -/
def readFileSync (host : Host) (dir : BlogDir) (name : String) : Except BuildError String :=
  match dir.lookup name with
  | some content => .ok content
  | none =>
    let path := normalizeOnto (blogDirPath host) (splitSlash name)
    match path.getLast? with
    | some entry =>
      if path.dropLast = blogDirPath host then
        match dir.lookup entry with
        | some content => .ok content
        | none => .error (.enoent name)
      else host.readOutside path
    | none => host.readOutside path

/-- The test `f.endsWith('.md')`. -/
def endsWithMd (f : String) : Bool :=
  ".md".data.isSuffixOf f.data

/-- The scan of `/\.md$/` over a string, with the match replaced by `''`: at the first
position where the rest of the input is exactly `.md` the rest is dropped; when no
position matches the string is unchanged. -/
def replaceMdEnd : List Char → List Char
  | [] => []
  | c :: cs => if c :: cs = ['.', 'm', 'd'] then [] else c :: replaceMdEnd cs

/-- The expression `filename.replace(/\.md$/, '')`. -/
def stripMd (filename : String) : String :=
  ⟨replaceMdEnd filename.data⟩

/-- Result of `getStaticPaths`; `paths` holds the `params.slug` of each entry. -/
structure StaticPaths where
  paths : List String
  fallback : Bool
  deriving DecidableEq, Repr

/-- The function `getStaticPaths`. -/
def getStaticPaths (dir : BlogDir) : StaticPaths :=
  let files := (readdirSync dir).filter endsWithMd
  let paths := files.map fun filename => stripMd filename
  { paths := paths, fallback := false }

/-! ## Front matter, posts and `getStaticProps` -/

/-- The `data` object returned by `matter(...)`, restricted to the keys the page reads. -/
structure FrontMatter where
  title : JsValue
  date : JsValue
  excerpt : JsValue
  category : JsValue
  cover : JsValue
  deriving DecidableEq, Repr

/-- An element of `allPosts` / `relatedPosts`.  `V` is the type of the values of its
fields: `JsValue` where `getStaticProps` builds it from the front matter, `Option String`
where the component reads props whose fields are strings or absent. -/
structure PostSummary (V : Type) where
  slug : String
  title : V
  date : V
  excerpt : V
  category : V
  cover : V
  deriving DecidableEq, Repr

/-- The `post` prop, with values of type `V` as for `PostSummary`. -/
structure Post (V : Type) where
  slug : String
  title : V
  date : V
  excerpt : V
  category : V
  cover : V
  content : V
  contentHtml : V
  deriving DecidableEq, Repr

/-- The `props` object returned by `getStaticProps`. -/
structure Props where
  post : Post JsValue
  relatedPosts : List (PostSummary JsValue)
  deriving DecidableEq, Repr

/-- The external collaborators of `getStaticProps`: the front-matter parser
`matter` (returning `data` and `content`) and the markdown converter `marked`. -/
structure Libs where
  matter : String → FrontMatter × String
  marked : String → String

/-- The object literal built for one file inside `files.map(...)`. -/
def mkSummary (libs : Libs) (filename fileContent : String) : PostSummary JsValue :=
  let data := (libs.matter fileContent).1
  { slug := stripMd filename
    title := data.title.or (.str "")
    date := data.date.or (.str "")
    excerpt := data.excerpt.or (.str "")
    category := data.category.or .null
    cover := data.cover.or .null }

/-- The callback of `files.map(...)` in `getStaticProps`: read the file, then build its
summary. -/
def loadSummary (host : Host) (libs : Libs) (dir : BlogDir) (filename : String) :
    Except BuildError (PostSummary JsValue) := do
  let fileContent ← readFileSync host dir filename
  pure (mkSummary libs filename fileContent)

/-- The expression `allPosts.filter(post => post.slug !== params.slug).slice(0, 3)`. -/
def relatedPosts {V : Type} (slug : String) (allPosts : List (PostSummary V)) :
    List (PostSummary V) :=
  (allPosts.filter fun post => post.slug != slug).take 3

/-- The function `getStaticProps`, called with `params.slug = slug`. -/
def getStaticProps (host : Host) (libs : Libs) (dir : BlogDir) (slug : String) :
    Except BuildError Props := do
  let fileContent ← readFileSync host dir (slug ++ ".md")
  let (data, content) := libs.matter fileContent
  let html := libs.marked content
  let files := (readdirSync dir).filter endsWithMd
  let allPosts ← files.mapM (loadSummary host libs dir)
  let related := relatedPosts slug allPosts
  pure
    { post :=
        { slug := slug
          title := data.title.or (.str "")
          date := data.date.or (.str "")
          excerpt := data.excerpt.or (.str "")
          category := data.category.or .null
          cover := data.cover.or .null
          content := .str content
          contentHtml := .str html }
      relatedPosts := related }

/-! ## Reading statistics -/

/-- The characters matched by `\s`: the ECMAScript white space and line terminators. -/
def isJsSpace (c : Char) : Bool :=
  c.toNat = 0x09 || c.toNat = 0x0A || c.toNat = 0x0B || c.toNat = 0x0C || c.toNat = 0x0D ||
  c.toNat = 0x20 || c.toNat = 0xA0 || c.toNat = 0x1680 ||
  (0x2000 ≤ c.toNat && c.toNat ≤ 0x200A) ||
  c.toNat = 0x2028 || c.toNat = 0x2029 || c.toNat = 0x202F || c.toNat = 0x205F ||
  c.toNat = 0x3000 || c.toNat = 0xFEFF

/-- The scan of `/<[^>]*>/g` over a string, every match replaced by `''`.  Outside a match
(`inTag = false`) a `<` starts a match exactly when some `>` follows it, since `[^>]*`
runs over every other character; the match then extends to the first such `>`
(`inTag = true` skips up to and including it).  Any other character is kept. -/
def stripTagsAux : Bool → List Char → List Char
  | _, [] => []
  | false, c :: cs =>
    if c = '<' ∧ '>' ∈ cs then stripTagsAux true cs else c :: stripTagsAux false cs
  | true, c :: cs =>
    if c = '>' then stripTagsAux false cs else stripTagsAux true cs

/-- The expression `s.replace(/<[^>]*>/g, '')`. -/
def stripTags (s : String) : String :=
  ⟨stripTagsAux false s.data⟩

/-- The scan of `split(/\s+/)`: `cur` holds the piece being read, reversed, and `inWs`
tells whether the previous character belonged to a separator.  The first character of a
white-space run closes the current piece, the rest of the run is skipped, and the end of
the input closes the last piece, which is empty when the input ends in white space. -/
def splitWsAux (cur : List Char) (inWs : Bool) : List Char → List String
  | [] => [⟨cur.reverse⟩]
  | c :: cs =>
    if isJsSpace c then
      if inWs then splitWsAux [] true cs else ⟨cur.reverse⟩ :: splitWsAux [] true cs
    else splitWsAux (c :: cur) false cs

/-- The expression `s.split(/\s+/)`. -/
def splitWs (s : String) : List String :=
  splitWsAux [] false s.data

/-- The statement `const wordCount = post?.contentHtml ? ... .length : 0`, as a function
of `post?.contentHtml`. -/
def wordCount (contentHtml : Option String) : ℕ :=
  match contentHtml with
  | some s => if s != "" then (splitWs (stripTags s)).length else 0
  | none => 0

/-- The expression `'s'.repeat(n)`. -/
def jsRepeat (s : String) : ℕ → String
  | 0 => ""
  | n + 1 => s ++ jsRepeat s n

/-- Rounding of a rational to the nearest integer, a tie going to the even one. -/
def roundHalfEven (q : ℚ) : ℤ :=
  if q - ⌊q⌋ < 1 / 2 then ⌊q⌋
  else if 1 / 2 < q - ⌊q⌋ then ⌊q⌋ + 1
  else if ⌊q⌋ % 2 = 0 then ⌊q⌋ else ⌊q⌋ + 1

/-- The binary64 number nearest to a rational `x`, a tie going to the even significand:
with `e = ⌊log₂ |x|⌋` the 53-bit significand is `x / 2 ^ (e - 52)` rounded to an integer.
Overflow and subnormal numbers are left out: this is the rounding for
`2 ^ (-1022) ≤ |x| < 2 ^ 1024` and for `x = 0`, which covers the quotient of every array
length by 200. -/
def toBinary64 (x : ℚ) : ℚ :=
  if x = 0 then 0
  else roundHalfEven (x / 2 ^ (Int.log 2 |x| - 52)) * 2 ^ (Int.log 2 |x| - 52)

/-- The Number operation `a / b`. -/
def jsDiv (a b : ℚ) : ℚ :=
  toBinary64 (a / b)

/-- The statement `const readingTime = Math.ceil(wordCount / 200)`. -/
def readingTime (wordCount : ℕ) : ℕ :=
  ⌈jsDiv wordCount 200⌉₊

/-! ## Rendering: the component `BlogPost` -/

/-- The rendered element tree, flattened in document order.  A JSX expression that
evaluates to `null`, `false` or `''` contributes no item. -/
inductive Markup
  | openTag (tag : String) (props : List (String × String))
  | closeTag (tag : String)
  | text (s : String)
  | innerHtml (html : String)
  deriving DecidableEq, Repr

/-- The element `<tag props>children</tag>`. -/
def el (tag : String) (props : List (String × String)) (children : List Markup) :
    List Markup :=
  Markup.openTag tag props :: (children ++ [Markup.closeTag tag])

/-- A prop whose value is a string, `null` or `undefined`; the prop is dropped for the
last two. -/
def optProp (name : String) : Option String → List (String × String)
  | some s => [(name, s)]
  | none => []

/-- A child `{value}` whose value is a string, `null` or `undefined`. -/
def textChild : Option String → List Markup
  | some s => if s != "" then [Markup.text s] else []
  | none => []

/-- The icons of the page: an `<svg>` with one `<path>`; they differ in class, stroke
width and path data only. -/
def svgIcon (className strokeWidth d : String) : List Markup :=
  el "svg"
    [("className", className), ("fill", "none"), ("viewBox", "0 0 24 24"),
      ("stroke", "currentColor")]
    (el "path"
      [("strokeLinecap", "round"), ("strokeLinejoin", "round"),
        ("strokeWidth", strokeWidth), ("d", d)] [])

/-- The test `s.startsWith(p)`. -/
def startsWith (s p : String) : Bool :=
  p.data.isPrefixOf s.data

/-- What the component takes from outside the page: the call
`format(new Date(d), 'MMM d, yyyy')` of the date library, which throws on a date it
cannot format, and the class name `styles.prose` of the CSS module. -/
structure RenderEnv where
  formatDate : String → Except BuildError String
  stylesProse : String

/-- The block `{/* Back to Blog */}`. -/
def backToBlog : List Markup :=
  el "div" [("className", "mb-8")]
    (el "Link"
      [("href", "/blog"),
        ("className", "inline-flex items-center gap-2 text-gray-400 hover:text-blue-400 transition-colors group text-sm font-medium")]
      (svgIcon "w-4 h-4 group-hover:-translate-x-1 transition-transform" "2"
          "M10 19l-7-7m0 0l7-7m-7 7h18" ++
        el "span" [] [Markup.text "Back to Blog"]))

/-- The block `{/* Category Badge */}`: `{post?.category && (...)}`. -/
def categoryBadge (post : Option (Post (Option String))) : List Markup :=
  if truthy (post.bind (·.category)) then
    el "div"
      [("className", "inline-flex items-center gap-2 px-3 py-1.5 rounded-full bg-blue-900/20 border border-blue-700/50 mb-6")]
      (svgIcon "w-3 h-3 text-blue-400" "2"
          "M7 7h.01M7 3h5c.512 0 1.024.195 1.414.586l7 7a2 2 0 010 2.828l-7 7a2 2 0 01-2.828 0l-7-7A1.994 1.994 0 013 12V7a4 4 0 014-4z" ++
        el "span" [("className", "text-blue-400 text-xs font-semibold uppercase tracking-wide")]
          (textChild (post.bind (·.category))))
  else []

/-- The block `{/* Title */}`. -/
def titleHeading (post : Option (Post (Option String))) : List Markup :=
  el "h1"
    [("className", "text-3xl sm:text-4xl md:text-5xl lg:text-6xl font-black text-white mb-8 leading-tight tracking-tight")]
    (textChild (jsOr (post.bind (·.title)) (some "Blog Post")))

/-- The expression `post?.date ? format(new Date(post.date), 'MMM d, yyyy') : 'No date'`. -/
def postDateText (env : RenderEnv) (post : Option (Post (Option String))) :
    Except BuildError String :=
  match post.bind (·.date) with
  | some d => if d != "" then env.formatDate d else pure "No date"
  | none => pure "No date"

/-- The block `{/* Meta Information */}`, given the date text and the constants
`readingTime` and `wordCount` computed at the top of the component. -/
def metaInformation (dateText : String) (readingTime wordCount : ℕ) : List Markup :=
  el "div"
    [("className", "flex flex-wrap items-center gap-4 text-sm text-gray-400 mb-8 pb-8 border-b border-gray-700")]
    (el "div" [("className", "flex items-center gap-2")]
        (svgIcon "w-4 h-4" "2"
            "M8 7V3m8 4V3m-9 8h10M5 21h14a2 2 0 002-2V7a2 2 0 00-2-2H5a2 2 0 00-2 2v12a2 2 0 002 2z" ++
          el "span" [] (textChild (some dateText))) ++
      el "div" [("className", "flex items-center gap-2")]
        (svgIcon "w-4 h-4" "2" "M12 8v4l3 3m6-3a9 9 0 11-18 0 9 9 0 0118 0z" ++
          el "span" [] [Markup.text (toString readingTime), Markup.text " min read"]) ++
      el "div" [("className", "flex items-center gap-2")]
        (svgIcon "w-4 h-4" "2"
            "M12 6.253v13m0-13C10.832 5.477 9.246 5 7.5 5S4.168 5.477 3 6.253v13C4.168 18.477 5.754 18 7.5 18s3.332.477 4.5 1.253m0-13C13.168 5.477 14.754 5 16.5 5c1.746 0 3.332.477 4.5 1.253v13C19.832 18.477 18.246 18 16.5 18c-1.746 0-3.332.477-4.5 1.253" ++
          el "span" [] [Markup.text (toString wordCount), Markup.text " words"]))

/-- The block `{/* Cover Image */}`: `{post?.cover && (...)}`. -/
def coverImage (post : Option (Post (Option String))) : List Markup :=
  match post.bind (·.cover) with
  | some cover =>
    if cover != "" then
      el "div"
        [("className", "relative w-full h-64 md:h-80 lg:h-96 rounded-3xl overflow-hidden mb-12 shadow-[0_20px_60px_rgba(0,0,0,0.15)]")]
        ((if startsWith cover "http" then
            el "Image"
              ([("src", cover)] ++
                optProp "alt" (jsOr (post.bind (·.title)) (some "Blog Post")) ++
                [("fill", "true"), ("className", "object-cover"), ("unoptimized", "true")]) []
          else
            el "Image"
              ([("src", if startsWith cover "/" then cover else "/images/blog/" ++ cover)] ++
                optProp "alt" (jsOr (post.bind (·.title)) (some "Blog Post")) ++
                [("fill", "true"), ("className", "object-cover"), ("priority", "true")]) []) ++
          el "div"
            [("className", "absolute inset-0 bg-gradient-to-t from-black/10 to-transparent")] [])
    else []
  | none => []

/-- The second branch of `post?.contentHtml ? (...) : (...)`. -/
def contentPlaceholder : List Markup :=
  el "div" [("className", "text-center py-12")]
    (el "div"
        [("className", "w-16 h-16 mx-auto mb-4 bg-gradient-to-br from-blue-500/20 to-blue-600/20 rounded-full flex items-center justify-center")]
        (svgIcon "w-8 h-8 text-gray-400" "1.5"
          "M9.172 16.172a4 4 0 015.656 0M9 10h.01M15 10h.01M21 12a9 9 0 11-18 0 9 9 0 0118 0z") ++
      el "p" [("className", "text-gray-400")] [Markup.text "Content not available"])

/-- The expression `post?.contentHtml ? (...) : (...)` of the block
`{/* Main Content */}`. -/
def mainContent (post : Option (Post (Option String))) : List Markup :=
  match post.bind (·.contentHtml) with
  | some html =>
    if html != "" then
      [Markup.openTag "div" [("className", "text-gray-200 leading-relaxed")],
        Markup.innerHtml html, Markup.closeTag "div"]
    else contentPlaceholder
  | none => contentPlaceholder

/-- The second branch of `relatedPost.cover ? (...) : (...)`. -/
def relatedCoverPlaceholder : List Markup :=
  el "div"
    [("className", "w-full h-full bg-gradient-to-br from-blue-500/20 to-blue-600/20 flex items-center justify-center")]
    (svgIcon "w-12 h-12 text-blue-400/30" "1"
      "M19 20H5a2 2 0 01-2-2V6a2 2 0 012-2h10a2 2 0 012 2v1m2 13a2 2 0 01-2-2V7m2 13a2 2 0 002-2V9a2 2 0 00-2-2h-2m-4-3H9M7 16h6M7 8h6v4H7V8z")

/-- The expression `relatedPost.cover ? (...) : (...)` of the block `{/* Image */}`. -/
def relatedCover (relatedPost : PostSummary (Option String)) : List Markup :=
  match relatedPost.cover with
  | some cover =>
    if cover != "" then
      if startsWith cover "http" then
        el "Image"
          ([("src", cover)] ++ optProp "alt" relatedPost.title ++
            [("fill", "true"),
              ("className", "object-cover group-hover:scale-110 transition-transform duration-500"),
              ("unoptimized", "true")]) []
      else
        el "Image"
          ([("src", if startsWith cover "/" then cover else "/images/blog/" ++ cover)] ++
            optProp "alt" relatedPost.title ++
            [("fill", "true"),
              ("className", "object-cover group-hover:scale-110 transition-transform duration-500")]) []
    else relatedCoverPlaceholder
  | none => relatedCoverPlaceholder

/-- The expression `relatedPost.date && format(new Date(relatedPost.date), 'MMM d, yyyy')`
of the block `{/* Date Badge */}`. -/
def relatedDateText (env : RenderEnv) (relatedPost : PostSummary (Option String)) :
    Except BuildError (Option String) :=
  match relatedPost.date with
  | some d => if d != "" then (env.formatDate d).map some else pure (some "")
  | none => pure none

/-- The element returned by the callback of `relatedPosts.slice(0, 3).map(...)`, given
the value of the date expression of its `{/* Date Badge */}`. -/
def relatedCardMarkup (relatedPost : PostSummary (Option String))
    (dateText : Option String) : List Markup :=
  el "div" [("key", relatedPost.slug), ("className", "group")]
    (el "Link" [("href", "/blog/" ++ relatedPost.slug), ("className", "block h-full")]
      (el "div"
        [("className", "bg-gray-800 border border-gray-700 rounded-2xl overflow-hidden h-full transform transition-all duration-300 hover:border-blue-500 hover:shadow-[0_8px_30px_rgba(59,130,246,0.3)]")]
        (el "div" [("className", "relative h-48 w-full overflow-hidden")]
            (relatedCover relatedPost ++
              el "div"
                [("className", "absolute inset-0 bg-gradient-to-t from-black/60 via-black/20 to-transparent")]
                [] ++
              el "div"
                [("className", "absolute bottom-3 left-3 bg-gray-800/90 backdrop-blur-sm text-xs font-semibold text-gray-200 px-3 py-1.5 rounded-full")]
                (textChild dateText)) ++
          el "div" [("className", "p-6")]
            (el "h3"
                [("className", "text-lg font-bold mb-3 text-white group-hover:text-blue-400 transition-colors line-clamp-2")]
                (textChild relatedPost.title) ++
              el "p" [("className", "text-gray-300 text-sm mb-4 line-clamp-3")]
                (textChild relatedPost.excerpt) ++
              el "div" [("className", "flex justify-end")]
                (el "div"
                  [("className", "w-8 h-8 bg-gray-700 rounded-full flex items-center justify-center group-hover:bg-blue-500 transition-colors")]
                  (svgIcon "w-4 h-4 text-gray-300 group-hover:text-white transition-colors"
                    "2" "M9 5l7 7-7 7"))))))

/-- The callback of `relatedPosts.slice(0, 3).map(...)`: the card of one related post. -/
def relatedCard (env : RenderEnv) (relatedPost : PostSummary (Option String)) :
    Except BuildError (List Markup) := do
  let dateText ← relatedDateText env relatedPost
  pure (relatedCardMarkup relatedPost dateText)

/-- The `<section>` of the block `{/* Related Posts */}`, given the rendered cards. -/
def relatedSectionMarkup (cards : List (List Markup)) : List Markup :=
  el "section" [("className", "mt-20")]
    (el "h2" [("className", "text-2xl font-bold text-white mb-8")]
        [Markup.text "Related Posts"] ++
      el "div" [("className", "grid grid-cols-1 md:grid-cols-2 lg:grid-cols-3 gap-8")]
        cards.flatten)

/-- The block `{/* Related Posts */}`: `{relatedPosts.length > 0 && (...)}`. -/
def relatedSection (env : RenderEnv) (relatedPosts : List (PostSummary (Option String))) :
    Except BuildError (List Markup) :=
  if relatedPosts.length > 0 then do
    let cards ← (relatedPosts.take 3).mapM (relatedCard env)
    pure (relatedSectionMarkup cards)
  else pure []

/-- The fixed frame of the page around its three variable parts: the children of
`<article>`, the children of the `prose` block and the related-posts block. -/
def page (env : RenderEnv) (article mainBody related : List Markup) : List Markup :=
  el "div" [("className", "min-h-screen bg-gray-900 text-white font-sans")]
    (el "NavigationBar" [] [] ++
      el "main" [("className", "pt-24 pb-16")]
        (el "div" [("className", "max-w-4xl mx-auto px-4 sm:px-6 lg:px-8")]
          (backToBlog ++
            el "article" [("className", "mb-12")] article ++
            el "div"
              [("className", "prose prose-lg max-w-none prose-invert " ++ env.stylesProse)]
              mainBody ++
            related)) ++
      el "Footer" [] [])

/-- The component `BlogPost({ post, relatedPosts = [] })`; the default `[]` of
`relatedPosts` is passed by the caller. -/
def BlogPost (env : RenderEnv) (post : Option (Post (Option String)))
    (relatedPosts : List (PostSummary (Option String))) :
    Except BuildError (List Markup) := do
  let wc := wordCount (post.bind (·.contentHtml))
  let rt := readingTime wc
  let dateText ← postDateText env post
  let related ← relatedSection env relatedPosts
  pure
    (page env
      (categoryBadge post ++ titleHeading post ++ metaInformation dateText rt wc ++
        coverImage post)
      (mainContent post) related)

/-- The `src` props of the `<Image>` elements of a rendering, in document order. -/
def imageSrcs : List Markup → List String
  | [] => []
  | Markup.openTag tag props :: rest =>
    (if tag = "Image" then (props.lookup "src").toList else []) ++ imageSrcs rest
  | _ :: rest => imageSrcs rest

/-- The rule of the specification for the image source of a cover (section 4.2,
`resolveCoverUrl`): a cover that starts with an absolute URL scheme, read as the prefix
`http`, is used as is; otherwise a cover that starts with the path separator `/` is used
as is; otherwise the images directory `/images/blog/` is put in front of it. -/
def resolveCoverUrl (cover : String) : String :=
  if startsWith cover "http" then cover
  else if startsWith cover "/" then cover
  else "/images/blog/" ++ cover

/-- A block of markup occurs in a rendering: its items stand there one after the other. -/
def occursIn (block out : List Markup) : Prop :=
  ∃ pre suf, out = pre ++ block ++ suf

/-- The opening tag of the gradient block that `relatedPost.cover ? (...) : (...)` renders
for a related post without cover. -/
def gradientTag : Markup :=
  Markup.openTag "div"
    [("className", "w-full h-full bg-gradient-to-br from-blue-500/20 to-blue-600/20 flex items-center justify-center")]

/-! ## Sample inputs -/

/-- A date formatter that knows one date and throws on every other string, as the date
library throws on a date it cannot parse. -/
def sampleFormat (d : String) : Except BuildError String :=
  if d = "2024-01-15" then .ok "Jan 15, 2024" else .error (.invalidDate d)

/-- A rendering environment built on `sampleFormat`. -/
def sampleEnv : RenderEnv :=
  { formatDate := sampleFormat, stylesProse := "blog_prose" }

/-- A post whose optional fields are all absent. -/
def barePost : Post (Option String) :=
  { slug := "hello", title := some "Hello", date := none, excerpt := some "",
    category := none, cover := none, content := none, contentHtml := none }

/-- A related post without cover and without date. -/
def bareSummary : PostSummary (Option String) :=
  { slug := "other", title := some "Other", date := some "", excerpt := some "",
    category := none, cover := none }

/-- A related post without cover whose date is not a date. -/
def undatedSummary : PostSummary (Option String) :=
  { slug := "draft", title := some "Draft", date := some "soon", excerpt := some "",
    category := none, cover := none }

/-- Front-matter libraries for the samples.  The file whose content is `E` has the front
matter `title: false`, an unquoted `date`, `excerpt: ''`, `category: 0` and `cover: 7`; in
every other file the content is the title and no other key is present.  The markdown body
is passed through. -/
def sampleLibs : Libs :=
  { matter := fun s =>
      if s = "E" then
        (⟨.bool false, .object "Date 2024-01-15T00:00:00.000Z", .str "", .number 0,
          .number 7⟩, s)
      else (⟨.str s, .undefined, .undefined, .undefined, .undefined⟩, s)
    marked := fun s => s }

/-- A host for the samples: the build runs in `/srv/site` and no file is read outside
`blog/`. -/
def sampleHost : Host :=
  { cwd := ["srv", "site"]
    readOutside := fun path => .error (.enoent ("/" ++ "/".intercalate path)) }

/-- A blog directory with five markdown files and two other files. -/
def sampleDir : BlogDir :=
  [("a.md", "A"), ("notes.txt", "n"), ("b.md", "B"), ("c.md", "C"), ("d.md", "D"),
    ("e.md", "E"), ("md", "x")]

/-- A related post without cover whose date the sample formatter knows. -/
def datedSummary : PostSummary (Option String) :=
  { slug := "news", title := some "News", date := some "2024-01-15", excerpt := some "",
    category := none, cover := none }

/-! ## Slugs and file names -/

theorem replaceMdEnd_append (l : List Char) : replaceMdEnd (l ++ ['.', 'm', 'd']) = l := by
  induction l with
  | nil => simp [replaceMdEnd]
  | cons c l ih =>
    have hne : ¬ (c :: (l ++ ['.', 'm', 'd']) = ['.', 'm', 'd']) := by
      intro h
      have := congrArg List.length h
      simp at this
    rw [List.cons_append, replaceMdEnd, if_neg hne, ih]

theorem endsWithMd_iff (f : String) :
    endsWithMd f = true ↔ ∃ l : List Char, f.data = l ++ ['.', 'm', 'd'] := by
  unfold endsWithMd
  rw [List.isSuffixOf_iff_suffix]
  constructor
  · rintro ⟨l, hl⟩; exact ⟨l, hl.symm⟩
  · rintro ⟨l, hl⟩; exact ⟨l, hl.symm⟩

theorem stripMd_append_md (s : String) : stripMd (s ++ ".md") = s := by
  cases s with
  | mk l =>
    show (⟨replaceMdEnd (l ++ ['.', 'm', 'd'])⟩ : String) = ⟨l⟩
    rw [replaceMdEnd_append]

theorem endsWithMd_append_md (s : String) : endsWithMd (s ++ ".md") = true :=
  (endsWithMd_iff _).2 ⟨s.data, rfl⟩

theorem stripMd_spec {f : String} (h : endsWithMd f = true) : stripMd f ++ ".md" = f := by
  obtain ⟨l, hl⟩ := (endsWithMd_iff f).1 h
  cases f with
  | mk d =>
    simp only at hl
    subst hl
    show (⟨replaceMdEnd (l ++ ['.', 'm', 'd']) ++ ['.', 'm', 'd']⟩ : String) = _
    rw [replaceMdEnd_append]


theorem lookup_of_mem {dir : BlogDir} {name : String} (h : name ∈ readdirSync dir) :
    ∃ c, dir.lookup name = some c := by
  induction dir with
  | nil => simp [readdirSync] at h
  | cons e es ih =>
    obtain ⟨k, v⟩ := e
    by_cases hk : name = k
    · subst hk
      exact ⟨v, by simp [List.lookup_cons]⟩
    · have hmem : name ∈ readdirSync es := by
        simp only [readdirSync, List.map_cons, List.mem_cons] at h
        rcases h with h | h
        · exact absurd h hk
        · exact h
      obtain ⟨c, hc⟩ := ih hmem
      refine ⟨c, ?_⟩
      have hb : (name == k) = false := by simpa using hk
      simpa [List.lookup_cons, hb] using hc

theorem lookup_of_nodup {dir : BlogDir} (hnd : (readdirSync dir).Nodup)
    {name content : String} (h : (name, content) ∈ dir) :
    dir.lookup name = some content := by
  induction dir with
  | nil => simp at h
  | cons e es ih =>
    obtain ⟨k, v⟩ := e
    simp only [readdirSync, List.map_cons, List.nodup_cons] at hnd
    rcases List.mem_cons.1 h with h1 | h1
    · cases h1
      simp [List.lookup_cons]
    · have hk : name ≠ k := by
        rintro rfl
        exact hnd.1 (List.mem_map.2 ⟨(name, content), h1, rfl⟩)
      have hb : (name == k) = false := by simpa using hk
      have := ih hnd.2 h1
      simpa [List.lookup_cons, hb] using this

theorem readFileSync_of_lookup (host : Host) {dir : BlogDir} {name content : String}
    (h : dir.lookup name = some content) : readFileSync host dir name = .ok content := by
  simp only [readFileSync, h]

theorem readFileSync_of_mem (host : Host) {dir : BlogDir} {name : String}
    (h : name ∈ readdirSync dir) : ∃ c, readFileSync host dir name = .ok c := by
  obtain ⟨c, hc⟩ := lookup_of_mem h
  exact ⟨c, readFileSync_of_lookup host hc⟩

theorem readFileSync_of_nodup (host : Host) {dir : BlogDir} (hnd : (readdirSync dir).Nodup)
    {name content : String} (h : (name, content) ∈ dir) :
    readFileSync host dir name = .ok content :=
  readFileSync_of_lookup host (lookup_of_nodup hnd h)

theorem mapM_loadSummary_ok (host : Host) (libs : Libs) (dir : BlogDir) (files : List String)
    (h : ∀ f ∈ files, f ∈ readdirSync dir) :
    ∃ l, files.mapM (loadSummary host libs dir) = .ok l ∧
      l.map PostSummary.slug = files.map stripMd := by
  induction files with
  | nil => exact ⟨[], rfl, rfl⟩
  | cons f fs ih =>
    obtain ⟨l, hl, hs⟩ := ih fun g hg => h g (List.mem_cons_of_mem _ hg)
    obtain ⟨c, hc⟩ := readFileSync_of_mem host (h f (List.mem_cons_self _ _))
    refine ⟨mkSummary libs f c :: l, ?_, ?_⟩
    · rw [List.mapM_cons, hl]
      simp [loadSummary, hc]
      rfl
    · simp [hs, mkSummary]

theorem mapM_loadSummary_entries (host : Host) (libs : Libs) (dir : BlogDir)
    (hnd : (readdirSync dir).Nodup) (es : List (String × String)) (h : ∀ e ∈ es, e ∈ dir) :
    (es.map Prod.fst).mapM (loadSummary host libs dir)
      = .ok (es.map fun e => mkSummary libs e.1 e.2) := by
  induction es with
  | nil => rfl
  | cons e es ih =>
    have he := readFileSync_of_nodup host hnd (h e (List.mem_cons_self _ _))
    rw [List.map_cons, List.mapM_cons, ih fun g hg => h g (List.mem_cons_of_mem _ hg)]
    simp [loadSummary, he]
    rfl


theorem stripMd_injOn {f g : String} (hf : endsWithMd f = true) (hg : endsWithMd g = true)
    (h : stripMd f = stripMd g) : f = g := by
  rw [← stripMd_spec hf, ← stripMd_spec hg, h]

theorem mem_paths_iff (dir : BlogDir) (s : String) :
    s ∈ (getStaticPaths dir).paths ↔ s ++ ".md" ∈ readdirSync dir := by
  simp only [getStaticPaths, List.mem_map, List.mem_filter]
  constructor
  · rintro ⟨f, ⟨hf, hmd⟩, rfl⟩
    rw [stripMd_spec hmd]
    exact hf
  · intro h
    exact ⟨s ++ ".md", ⟨h, endsWithMd_append_md s⟩, stripMd_append_md s⟩

theorem getStaticProps_eq (host : Host) (libs : Libs) (dir : BlogDir) (slug c : String)
    (l : List (PostSummary JsValue))
    (hc : readFileSync host dir (slug ++ ".md") = .ok c)
    (hl : ((readdirSync dir).filter endsWithMd).mapM (loadSummary host libs dir) = .ok l) :
    getStaticProps host libs dir slug = .ok
      { post :=
          { slug := slug
            title := (libs.matter c).1.title.or (.str "")
            date := (libs.matter c).1.date.or (.str "")
            excerpt := (libs.matter c).1.excerpt.or (.str "")
            category := (libs.matter c).1.category.or .null
            cover := (libs.matter c).1.cover.or .null
            content := .str (libs.matter c).2
            contentHtml := .str (libs.marked (libs.matter c).2) }
        relatedPosts := relatedPosts slug l } := by
  unfold getStaticProps
  rw [hc]
  simp only [Except.bind, bind, hl]
  rfl

theorem JsValue.or_of_truthy {v : JsValue} (h : v.truthy = true) (d : JsValue) :
    v.or d = v := by
  simp [JsValue.or, h]

theorem JsValue.or_of_falsy {v : JsValue} (h : v.truthy = false) (d : JsValue) :
    v.or d = d := by
  simp [JsValue.or, h]

theorem JsValue.truthy_eq_false_iff (v : JsValue) :
    v.truthy = false ↔
      v = .undefined ∨ v = .null ∨ v = .bool false ∨ v = .number 0 ∨ v = .nan ∨
        v = .str "" := by
  cases v <;> simp [JsValue.truthy]

theorem take_min_length {α : Type} (k : Nat) (l : List α) :
    l.take (min k l.length) = l.take k := by
  rcases Nat.le_total k l.length with h | h
  · rw [Nat.min_eq_left h]
  · rw [Nat.min_eq_right h, List.take_length, List.take_of_length_le h]

/-! ## Word count -/

theorem splitWsAux_length_pos (cur : List Char) (inWs : Bool) (l : List Char) :
    0 < (splitWsAux cur inWs l).length := by
  induction l generalizing cur inWs with
  | nil => simp [splitWsAux]
  | cons c cs ih =>
    unfold splitWsAux
    split_ifs
    · exact ih _ _
    · simp
    · exact ih _ _

theorem splitWsAux_length_le (cur : List Char) (inWs : Bool) (l : List Char) :
    (splitWsAux cur inWs l).length ≤ l.length + 1 := by
  induction l generalizing cur inWs with
  | nil => simp [splitWsAux]
  | cons c cs ih =>
    unfold splitWsAux
    split_ifs
    · exact (ih _ _).trans (by simp)
    · simpa using ih [] true
    · exact (ih _ _).trans (by simp)

theorem stripTagsAux_length_le (inTag : Bool) (l : List Char) :
    (stripTagsAux inTag l).length ≤ l.length := by
  induction l generalizing inTag with
  | nil => cases inTag <;> simp [stripTagsAux]
  | cons c cs ih =>
    cases inTag
    · unfold stripTagsAux
      split_ifs
      · exact (ih _).trans (by simp)
      · simpa using ih false
    · unfold stripTagsAux
      split_ifs
      · exact (ih _).trans (by simp)
      · exact (ih _).trans (by simp)

theorem wordCount_le (s : String) : wordCount (some s) ≤ s.length + 1 := by
  simp only [wordCount]
  split_ifs
  · exact (splitWsAux_length_le _ _ _).trans
      (Nat.succ_le_succ (stripTagsAux_length_le false s.data))
  · exact Nat.zero_le _

theorem wordCount_pos {s : String} (h : s ≠ "") : 0 < wordCount (some s) := by
  have hb : (s != "") = true := bne_iff_ne.2 h
  simp only [wordCount, hb, if_true]
  exact splitWsAux_length_pos _ _ _

theorem stripTagsAux_text (w rest : List Char) (hw : '<' ∉ w) :
    stripTagsAux false (w ++ rest) = w ++ stripTagsAux false rest := by
  induction w with
  | nil => rfl
  | cons c cs ih =>
    have hc : c ≠ '<' := fun h => hw (h ▸ List.mem_cons_self _ _)
    have hcs : '<' ∉ cs := fun h => hw (List.mem_cons_of_mem _ h)
    rw [List.cons_append, stripTagsAux, if_neg (fun h => hc h.1), ih hcs, List.cons_append]

theorem jsRepeat_data_succ (s : String) (n : ℕ) :
    (jsRepeat s (n + 1)).data = s.data ++ (jsRepeat s n).data := rfl

theorem lt_not_mem_words (n : ℕ) : '<' ∉ (jsRepeat "word " n).data := by
  induction n with
  | zero => simp [jsRepeat]
  | succ n ih =>
    rw [jsRepeat_data_succ, List.mem_append]
    rintro (h | h)
    · revert h; decide
    · exact ih h

theorem stripTags_paragraph (n : ℕ) :
    stripTags ("<p>" ++ jsRepeat "word " n ++ "</p>") = jsRepeat "word " n := by
  have hd : ("<p>" ++ jsRepeat "word " n ++ "</p>").data
      = '<' :: 'p' :: '>' :: ((jsRepeat "word " n).data ++ ['<', '/', 'p', '>']) := rfl
  have hgt : '>' ∈ 'p' :: '>' :: ((jsRepeat "word " n).data ++ ['<', '/', 'p', '>']) := by
    simp
  unfold stripTags
  rw [hd, stripTagsAux, if_pos ⟨rfl, hgt⟩, stripTagsAux, if_neg (by decide), stripTagsAux,
    if_pos rfl, stripTagsAux_text _ _ (lt_not_mem_words n)]
  have : stripTagsAux false ['<', '/', 'p', '>'] = [] := by decide
  rw [this, List.append_nil]

theorem splitWsAux_words (n : ℕ) :
    (splitWsAux [] true (jsRepeat "word " n).data).length = n + 1 := by
  induction n with
  | zero => rfl
  | succ n ih =>
    rw [jsRepeat_data_succ]
    show (splitWsAux [] true ('w' :: 'o' :: 'r' :: 'd' :: ' ' :: (jsRepeat "word " n).data)).length
      = n + 1 + 1
    rw [splitWsAux, if_neg (by decide), splitWsAux, if_neg (by decide), splitWsAux,
      if_neg (by decide), splitWsAux, if_neg (by decide), splitWsAux, if_pos (by decide),
      if_neg (by decide), List.length_cons, ih]

theorem splitWs_words (n : ℕ) : (splitWs (jsRepeat "word " n)).length = n + 1 := by
  cases n with
  | zero => rfl
  | succ n =>
    unfold splitWs
    rw [jsRepeat_data_succ]
    show (splitWsAux [] false ('w' :: 'o' :: 'r' :: 'd' :: ' ' :: (jsRepeat "word " n).data)).length
      = n + 1 + 1
    rw [splitWsAux, if_neg (by decide), splitWsAux, if_neg (by decide), splitWsAux,
      if_neg (by decide), splitWsAux, if_neg (by decide), splitWsAux, if_pos (by decide),
      if_neg (by decide), List.length_cons, splitWsAux_words]

theorem wordCount_paragraph (n : ℕ) :
    wordCount (some ("<p>" ++ jsRepeat "word " n ++ "</p>")) = n + 1 := by
  have hne : ("<p>" ++ jsRepeat "word " n ++ "</p>") ≠ "" := by
    intro h
    have := congrArg String.data h
    have hd : ("<p>" ++ jsRepeat "word " n ++ "</p>").data
      = '<' :: 'p' :: '>' :: ((jsRepeat "word " n).data ++ ['<', '/', 'p', '>']) := rfl
    rw [hd] at this
    exact List.cons_ne_nil _ _ this
  have hb : (("<p>" ++ jsRepeat "word " n ++ "</p>") != "") = true := bne_iff_ne.2 hne
  simp only [wordCount, hb, if_true]
  rw [stripTags_paragraph, splitWs_words]

/-! ## Reading time -/

theorem roundHalfEven_sub_le (q : ℚ) : |(roundHalfEven q : ℚ) - q| ≤ 1 / 2 := by
  have h1 := Int.floor_le q
  have h2 := Int.lt_floor_add_one q
  unfold roundHalfEven
  rw [abs_le]
  split_ifs <;> constructor <;> push_cast <;> linarith

theorem roundHalfEven_intCast (n : ℤ) : roundHalfEven (n : ℚ) = n := by
  simp [roundHalfEven]

theorem toBinary64_sub_le {x : ℚ} (h0 : 0 < x) (h1 : x < 2 ^ (46 : ℤ)) :
    |toBinary64 x - x| ≤ 1 / 256 := by
  have he : Int.log 2 x < 46 := (Int.lt_zpow_iff_log_lt (by norm_num) h0).1 (by exact_mod_cast h1)
  have hu0 : (0 : ℚ) < 2 ^ (Int.log 2 x - 52) := zpow_pos (by norm_num) _
  have hu1 : (2 : ℚ) ^ (Int.log 2 x - 52) ≤ 2 ^ (-7 : ℤ) :=
    zpow_le_zpow_right₀ (by norm_num) (by omega)
  have hu2 : (2 : ℚ) ^ (-7 : ℤ) = 1 / 128 := by norm_num
  rw [hu2] at hu1
  have hr := roundHalfEven_sub_le (x / 2 ^ (Int.log 2 x - 52))
  have hx : toBinary64 x - x
      = ((roundHalfEven (x / 2 ^ (Int.log 2 x - 52)) : ℚ) - x / 2 ^ (Int.log 2 x - 52))
        * 2 ^ (Int.log 2 x - 52) := by
    unfold toBinary64
    rw [if_neg h0.ne', abs_of_pos h0]
    field_simp
  rw [hx, abs_mul, abs_of_pos hu0]
  calc _ ≤ (1 / 2 : ℚ) * (1 / 128) := mul_le_mul hr hu1 hu0.le (by norm_num)
    _ = 1 / 256 := by norm_num

theorem toBinary64_natCast {k : ℕ} (hk : k < 2 ^ 46) : toBinary64 (k : ℚ) = k := by
  rcases Nat.eq_zero_or_pos k with rfl | hpos
  · simp [toBinary64]
  · have h0 : (0 : ℚ) < k := by exact_mod_cast hpos
    have h1 : (k : ℚ) < (2 : ℚ) ^ (46 : ℤ) := by
      have : (k : ℚ) < (2 : ℚ) ^ (46 : ℕ) := by exact_mod_cast hk
      exact_mod_cast this
    have he : Int.log 2 (k : ℚ) < 46 :=
      (Int.lt_zpow_iff_log_lt (by norm_num) h0).1 (by exact_mod_cast h1)
    obtain ⟨n, hn⟩ : ∃ n : ℕ, 52 - Int.log 2 (k : ℚ) = n :=
      ⟨(52 - Int.log 2 (k : ℚ)).toNat, (Int.toNat_of_nonneg (by omega)).symm⟩
    have hq : (k : ℚ) / 2 ^ (Int.log 2 (k : ℚ) - 52) = ((k * 2 ^ n : ℤ) : ℚ) := by
      have : Int.log 2 (k : ℚ) - 52 = -(n : ℤ) := by omega
      rw [this, zpow_neg, div_inv_eq_mul, zpow_natCast]
      push_cast
      ring
    unfold toBinary64
    rw [if_neg h0.ne', abs_of_pos h0, hq, roundHalfEven_intCast, ← hq]
    have hu0 : (2 : ℚ) ^ (Int.log 2 (k : ℚ) - 52) ≠ 0 := (zpow_pos (by norm_num) _).ne'
    field_simp

theorem readingTime_eq {w : ℕ} (hw : w < 200 * 2 ^ 46) : readingTime w = (w + 199) / 200 := by
  unfold readingTime jsDiv
  rcases Nat.eq_zero_or_pos (w % 200) with hr | hr
  · obtain ⟨k, rfl⟩ : ∃ k, w = 200 * k := ⟨w / 200, by omega⟩
    have hk : k < 2 ^ 46 := by omega
    have : ((200 * k : ℕ) : ℚ) / 200 = (k : ℚ) := by push_cast; field_simp
    rw [this, toBinary64_natCast hk, Nat.ceil_natCast]
    omega
  · have hdiv : (w + 199) / 200 = w / 200 + 1 := by omega
    have hwq : (w : ℚ) = 200 * (w / 200 : ℕ) + (w % 200 : ℕ) := by
      exact_mod_cast (Nat.div_add_mod w 200).symm
    have hr1 : (1 : ℚ) ≤ (w % 200 : ℕ) := by exact_mod_cast hr
    have hr2 : ((w % 200 : ℕ) : ℚ) ≤ 199 := by
      have : w % 200 ≤ 199 := by omega
      exact_mod_cast this
    have hx0 : (0 : ℚ) < (w : ℚ) / 200 := by rw [hwq]; positivity
    have hx1 : (w : ℚ) / 200 < 2 ^ (46 : ℤ) := by
      have h53 : (w : ℚ) < 200 * (2 : ℚ) ^ (46 : ℕ) := by exact_mod_cast hw
      have h46 : (2 : ℚ) ^ (46 : ℤ) = 2 ^ (46 : ℕ) := by norm_cast
      rw [h46, div_lt_iff₀ (by norm_num)]
      linarith
    have herr := abs_le.1 (toBinary64_sub_le hx0 hx1)
    have hlo : ((w / 200 : ℕ) : ℚ) < toBinary64 ((w : ℚ) / 200) := by
      have : ((w / 200 : ℕ) : ℚ) + 1 / 200 ≤ (w : ℚ) / 200 := by rw [hwq]; linarith
      linarith [herr.1]
    have hhi : toBinary64 ((w : ℚ) / 200) ≤ ((w / 200 + 1 : ℕ) : ℚ) := by
      have : (w : ℚ) / 200 ≤ ((w / 200 : ℕ) : ℚ) + 199 / 200 := by rw [hwq]; linarith
      push_cast
      linarith [herr.2]
    rw [hdiv]
    exact (Nat.ceil_eq_iff (by omega)).2 ⟨by simpa using hlo, hhi⟩

theorem roundHalfEven_pos {q : ℚ} (h : 1 ≤ q) : 1 ≤ roundHalfEven q := by
  have h1 := abs_le.1 (roundHalfEven_sub_le q)
  have h2 : (0 : ℚ) < (roundHalfEven q : ℚ) := by linarith [h1.1]
  have h3 : (0 : ℤ) < roundHalfEven q := by exact_mod_cast h2
  omega

theorem toBinary64_pos {x : ℚ} (h0 : 0 < x) : 0 < toBinary64 x := by
  have hu0 : (0 : ℚ) < 2 ^ (Int.log 2 x - 52) := zpow_pos (by norm_num) _
  have hle : ((2 : ℕ) : ℚ) ^ Int.log 2 x ≤ x := Int.zpow_log_le_self (by norm_num) h0
  have hq : (1 : ℚ) ≤ x / 2 ^ (Int.log 2 x - 52) := by
    rw [le_div_iff₀ hu0, one_mul]
    have hmono : (2 : ℚ) ^ (Int.log 2 x - 52) ≤ 2 ^ Int.log 2 x :=
      zpow_le_zpow_right₀ (by norm_num) (by omega)
    have hle2 : (2 : ℚ) ^ Int.log 2 x ≤ x := by exact_mod_cast hle
    exact hmono.trans hle2
  have hr : (1 : ℚ) ≤ (roundHalfEven (x / 2 ^ (Int.log 2 x - 52)) : ℚ) := by
    exact_mod_cast roundHalfEven_pos hq
  unfold toBinary64
  rw [if_neg h0.ne', abs_of_pos h0]
  exact mul_pos (by linarith) hu0

theorem readingTime_pos {w : ℕ} (hw : 0 < w) : 0 < readingTime w := by
  unfold readingTime jsDiv
  apply Nat.ceil_pos.2
  apply toBinary64_pos
  have : (0 : ℚ) < w := by exact_mod_cast hw
  positivity

theorem natCeil_div_200 (w : ℕ) : ⌈(w : ℚ) / 200⌉₊ = (w + 199) / 200 := by
  rcases Nat.eq_zero_or_pos (w % 200) with hr | hr
  · obtain ⟨k, rfl⟩ : ∃ k, w = 200 * k := ⟨w / 200, by omega⟩
    have : ((200 * k : ℕ) : ℚ) / 200 = (k : ℚ) := by push_cast; field_simp
    rw [this, Nat.ceil_natCast]
    omega
  · have hdiv : (w + 199) / 200 = w / 200 + 1 := by omega
    have hwq : (w : ℚ) = 200 * (w / 200 : ℕ) + (w % 200 : ℕ) := by
      exact_mod_cast (Nat.div_add_mod w 200).symm
    have hr1 : (1 : ℚ) ≤ (w % 200 : ℕ) := by exact_mod_cast hr
    have hr2 : ((w % 200 : ℕ) : ℚ) ≤ 199 := by
      have : w % 200 ≤ 199 := by omega
      exact_mod_cast this
    rw [hdiv]
    refine (Nat.ceil_eq_iff (by omega)).2 ⟨?_, ?_⟩
    · have : ((w / 200 : ℕ) : ℚ) + 1 / 200 ≤ (w : ℚ) / 200 := by rw [hwq]; linarith
      simp only [Nat.add_sub_cancel]
      linarith
    · have : (w : ℚ) / 200 ≤ ((w / 200 : ℕ) : ℚ) + 199 / 200 := by rw [hwq]; linarith
      push_cast
      linarith

/-! ## Static paths and props: claims -/

/-- C1: for every slug and every list of post summaries, the related posts
`allPosts.filter(post => post.slug !== slug).slice(0, 3)` contain no summary with that
slug, are at most 3, and form a sublist of the summaries, in their order. -/
theorem C1_related_posts {V : Type} (slug : String) (summaries : List (PostSummary V)) :
    (∀ p ∈ relatedPosts slug summaries, p.slug ≠ slug) ∧
    (relatedPosts slug summaries).length ≤ 3 ∧
    (relatedPosts slug summaries).Sublist summaries := by
  refine ⟨?_, ?_, ?_⟩
  · intro p hp
    have := List.mem_of_mem_take hp
    simpa using (List.mem_filter.1 this).2
  · simp [relatedPosts, List.length_take]
  · exact (List.take_sublist _ _).trans (List.filter_sublist _)

/-- C6: for every directory listing with pairwise distinct file names, `getStaticPaths`
returns, in the order of the listing, one slug per file whose name ends in `.md`, the file
name being the slug followed by `.md`; the slugs are pairwise distinct, a string is a slug
exactly when the string followed by `.md` is a file of the listing, no slug comes from a
file that does not end in `.md`, and five markdown files give five slugs, as in the sample
directory. -/
theorem C6_static_paths (dir : BlogDir) (hnd : (readdirSync dir).Nodup) :
    List.Forall₂ (fun f s => endsWithMd f = true ∧ f = s ++ ".md")
      ((readdirSync dir).filter endsWithMd) (getStaticPaths dir).paths ∧
    (getStaticPaths dir).paths.length = ((readdirSync dir).filter endsWithMd).length ∧
    (getStaticPaths dir).paths.Nodup ∧
    (∀ s, s ∈ (getStaticPaths dir).paths ↔ s ++ ".md" ∈ readdirSync dir) ∧
    (∀ f ∈ readdirSync dir, endsWithMd f = false →
      ∀ s ∈ (getStaticPaths dir).paths, s ++ ".md" ≠ f) ∧
    (((readdirSync dir).filter endsWithMd).length = 5 →
      (getStaticPaths dir).paths.length = 5) ∧
    (getStaticPaths sampleDir).paths = ["a", "b", "c", "d", "e"] := by
  refine ⟨?_, ?_, ?_, mem_paths_iff dir, ?_, ?_, by decide⟩
  · simp only [getStaticPaths]
    rw [List.forall₂_map_right_iff]
    apply List.forall₂_same.2
    intro f hf
    have := (List.mem_filter.1 hf).2
    exact ⟨this, (stripMd_spec this).symm⟩
  · simp [getStaticPaths]
  · simp only [getStaticPaths]
    refine List.Nodup.map_on ?_ (hnd.filter _)
    intro f hf g hg h
    exact stripMd_injOn (List.mem_filter.1 hf).2 (List.mem_filter.1 hg).2 h
  · intro f _ hmd s _ h
    rw [← h, endsWithMd_append_md] at hmd
    exact absurd hmd (by simp)
  · intro h
    simpa [getStaticPaths] using h

/-- Witness of C6 at the sample directory. -/
theorem C6_static_paths_witness :
    (readdirSync sampleDir).Nodup ∧
    (List.Forall₂ (fun f s => endsWithMd f = true ∧ f = s ++ ".md")
        ((readdirSync sampleDir).filter endsWithMd) (getStaticPaths sampleDir).paths ∧
      (getStaticPaths sampleDir).paths.length
        = ((readdirSync sampleDir).filter endsWithMd).length ∧
      (getStaticPaths sampleDir).paths.Nodup ∧
      (∀ s, s ∈ (getStaticPaths sampleDir).paths ↔ s ++ ".md" ∈ readdirSync sampleDir) ∧
      (∀ f ∈ readdirSync sampleDir, endsWithMd f = false →
        ∀ s ∈ (getStaticPaths sampleDir).paths, s ++ ".md" ≠ f) ∧
      (((readdirSync sampleDir).filter endsWithMd).length = 5 →
        (getStaticPaths sampleDir).paths.length = 5) ∧
      (getStaticPaths sampleDir).paths = ["a", "b", "c", "d", "e"]) :=
  ⟨by decide, C6_static_paths sampleDir (by decide)⟩

/-- C9: for every file name `f` of a directory listing that ends in `.md`, the slug
derived from `f` followed by `.md` is `f` again; the slug is among the paths of
`getStaticPaths`, the file name `getStaticProps` builds from it is a file of the listing,
reading it succeeds, and `getStaticProps` returns props. -/
theorem C9_slug_names_file (host : Host) (libs : Libs) (dir : BlogDir) (f : String)
    (hf : f ∈ readdirSync dir) (hmd : endsWithMd f = true) :
    stripMd f ++ ".md" = f ∧
    stripMd f ∈ (getStaticPaths dir).paths ∧
    stripMd f ++ ".md" ∈ readdirSync dir ∧
    (∃ c, readFileSync host dir (stripMd f ++ ".md") = .ok c) ∧
    ∃ props, getStaticProps host libs dir (stripMd f) = .ok props := by
  have hmem : stripMd f ++ ".md" ∈ readdirSync dir := by rw [stripMd_spec hmd]; exact hf
  obtain ⟨c, hc⟩ := readFileSync_of_mem host hmem
  obtain ⟨l, hl, -⟩ := mapM_loadSummary_ok host libs dir
    ((readdirSync dir).filter endsWithMd) fun g hg => (List.mem_filter.1 hg).1
  exact ⟨stripMd_spec hmd, (mem_paths_iff dir _).2 hmem, hmem, ⟨c, hc⟩, _,
    getStaticProps_eq host libs dir _ c l hc hl⟩

/-- Witness of C9 at the file `b.md` of the sample directory. -/
theorem C9_slug_names_file_witness :
    "b.md" ∈ readdirSync sampleDir ∧ endsWithMd "b.md" = true ∧
    (stripMd "b.md" ++ ".md" = "b.md" ∧
      stripMd "b.md" ∈ (getStaticPaths sampleDir).paths ∧
      stripMd "b.md" ++ ".md" ∈ readdirSync sampleDir ∧
      (∃ c, readFileSync sampleHost sampleDir (stripMd "b.md" ++ ".md") = .ok c) ∧
      ∃ props, getStaticProps sampleHost sampleLibs sampleDir (stripMd "b.md") = .ok props) :=
  ⟨by decide, by decide,
    C9_slug_names_file sampleHost sampleLibs sampleDir "b.md" (by decide) (by decide)⟩

/-- C5, as the code has it: for every slug whose file `slug.md`, resolved as `path.join`
resolves it, can be read, and every front-matter record the parser returns for it,
`getStaticProps` returns props whose post has the requested slug.  A field that is
omitted, and likewise one present with a falsy value (`null`, `false`, `0`, `NaN`, `''`),
is defaulted: title, date and excerpt to the empty string, category and cover to `null`.
A field present with a truthy value, such as a non-empty string, is returned unchanged. -/
theorem C5_load_post_defaults (host : Host) (libs : Libs) (dir : BlogDir)
    (slug content : String)
    (hfile : readFileSync host dir (slug ++ ".md") = .ok content) :
    ∃ props, getStaticProps host libs dir slug = .ok props ∧
      props.post.slug = slug ∧
      ((libs.matter content).1.title = .undefined → props.post.title = .str "") ∧
      ((libs.matter content).1.date = .undefined → props.post.date = .str "") ∧
      ((libs.matter content).1.excerpt = .undefined → props.post.excerpt = .str "") ∧
      ((libs.matter content).1.category = .undefined → props.post.category = .null) ∧
      ((libs.matter content).1.cover = .undefined → props.post.cover = .null) ∧
      ((libs.matter content).1.title.truthy = false → props.post.title = .str "") ∧
      ((libs.matter content).1.date.truthy = false → props.post.date = .str "") ∧
      ((libs.matter content).1.excerpt.truthy = false → props.post.excerpt = .str "") ∧
      ((libs.matter content).1.category.truthy = false → props.post.category = .null) ∧
      ((libs.matter content).1.cover.truthy = false → props.post.cover = .null) ∧
      ((libs.matter content).1.title.truthy = true → props.post.title = (libs.matter content).1.title) ∧
      ((libs.matter content).1.date.truthy = true → props.post.date = (libs.matter content).1.date) ∧
      ((libs.matter content).1.excerpt.truthy = true → props.post.excerpt = (libs.matter content).1.excerpt) ∧
      ((libs.matter content).1.category.truthy = true → props.post.category = (libs.matter content).1.category) ∧
      ((libs.matter content).1.cover.truthy = true → props.post.cover = (libs.matter content).1.cover) ∧
      (∀ s, s ≠ "" → (libs.matter content).1.title = .str s → props.post.title = .str s) ∧
      (∀ s, s ≠ "" → (libs.matter content).1.date = .str s → props.post.date = .str s) ∧
      (∀ s, s ≠ "" → (libs.matter content).1.excerpt = .str s → props.post.excerpt = .str s) ∧
      (∀ s, s ≠ "" → (libs.matter content).1.category = .str s → props.post.category = .str s) ∧
      (∀ s, s ≠ "" → (libs.matter content).1.cover = .str s → props.post.cover = .str s) ∧
      ∀ v : JsValue, v.truthy = false ↔
        v = .undefined ∨ v = .null ∨ v = .bool false ∨ v = .number 0 ∨ v = .nan ∨
          v = .str "" := by
  obtain ⟨l, hl, -⟩ := mapM_loadSummary_ok host libs dir
    ((readdirSync dir).filter endsWithMd) fun g hg => (List.mem_filter.1 hg).1
  refine ⟨_, getStaticProps_eq host libs dir slug content l hfile hl, rfl, ?_, ?_, ?_, ?_,
    ?_, ?_, ?_, ?_, ?_, ?_, ?_, ?_, ?_, ?_, ?_, ?_, ?_, ?_, ?_, ?_,
    JsValue.truthy_eq_false_iff⟩
  all_goals first
    | (intro h; simp only [h]; rfl)
    | (intro h; exact JsValue.or_of_falsy h _)
    | (intro h; exact JsValue.or_of_truthy h _)
    | (intro s hs h
       simp only [h]
       exact JsValue.or_of_truthy (by simpa [JsValue.truthy] using hs) _)

/-- Witness of C5 at the slug `./a`, which `path.join` resolves to the file `a.md` of the
sample directory. -/
theorem C5_load_post_defaults_witness :
    readFileSync sampleHost sampleDir ("./a" ++ ".md") = .ok "A" ∧
    ∃ props, getStaticProps sampleHost sampleLibs sampleDir "./a" = .ok props ∧
      props.post.slug = "./a" ∧
      ((sampleLibs.matter "A").1.title = .undefined → props.post.title = .str "") ∧
      ((sampleLibs.matter "A").1.date = .undefined → props.post.date = .str "") ∧
      ((sampleLibs.matter "A").1.excerpt = .undefined → props.post.excerpt = .str "") ∧
      ((sampleLibs.matter "A").1.category = .undefined → props.post.category = .null) ∧
      ((sampleLibs.matter "A").1.cover = .undefined → props.post.cover = .null) ∧
      ((sampleLibs.matter "A").1.title.truthy = false → props.post.title = .str "") ∧
      ((sampleLibs.matter "A").1.date.truthy = false → props.post.date = .str "") ∧
      ((sampleLibs.matter "A").1.excerpt.truthy = false → props.post.excerpt = .str "") ∧
      ((sampleLibs.matter "A").1.category.truthy = false → props.post.category = .null) ∧
      ((sampleLibs.matter "A").1.cover.truthy = false → props.post.cover = .null) ∧
      ((sampleLibs.matter "A").1.title.truthy = true → props.post.title = (sampleLibs.matter "A").1.title) ∧
      ((sampleLibs.matter "A").1.date.truthy = true → props.post.date = (sampleLibs.matter "A").1.date) ∧
      ((sampleLibs.matter "A").1.excerpt.truthy = true → props.post.excerpt = (sampleLibs.matter "A").1.excerpt) ∧
      ((sampleLibs.matter "A").1.category.truthy = true → props.post.category = (sampleLibs.matter "A").1.category) ∧
      ((sampleLibs.matter "A").1.cover.truthy = true → props.post.cover = (sampleLibs.matter "A").1.cover) ∧
      (∀ s, s ≠ "" → (sampleLibs.matter "A").1.title = .str s → props.post.title = .str s) ∧
      (∀ s, s ≠ "" → (sampleLibs.matter "A").1.date = .str s → props.post.date = .str s) ∧
      (∀ s, s ≠ "" → (sampleLibs.matter "A").1.excerpt = .str s → props.post.excerpt = .str s) ∧
      (∀ s, s ≠ "" → (sampleLibs.matter "A").1.category = .str s → props.post.category = .str s) ∧
      (∀ s, s ≠ "" → (sampleLibs.matter "A").1.cover = .str s → props.post.cover = .str s) ∧
      ∀ v : JsValue, v.truthy = false ↔
        v = .undefined ∨ v = .null ∨ v = .bool false ∨ v = .number 0 ∨ v = .nan ∨
          v = .str "" :=
  ⟨rfl, C5_load_post_defaults sampleHost sampleLibs sampleDir "./a" "A" rfl⟩

/-- C5 as stated fails: the file `e.md` of the sample directory has the front matter
`title: false` and `category: 0`, both present, and the post `getStaticProps` returns for
the slug `e` has the title `''` and the category `null` in their place; its unquoted date
and its `cover: 7` are returned unchanged. -/
theorem C5_present_value_counterexample :
    readFileSync sampleHost sampleDir ("e" ++ ".md") = .ok "E" ∧
    (sampleLibs.matter "E").1.title = .bool false ∧
    (sampleLibs.matter "E").1.category = .number 0 ∧
    ∃ props, getStaticProps sampleHost sampleLibs sampleDir "e" = .ok props ∧
      props.post.title = .str "" ∧ props.post.title ≠ (sampleLibs.matter "E").1.title ∧
      props.post.category = .null ∧
      props.post.category ≠ (sampleLibs.matter "E").1.category ∧
      props.post.date = .object "Date 2024-01-15T00:00:00.000Z" ∧
      props.post.cover = .number 7 :=
  ⟨rfl, rfl, rfl, _, rfl, rfl, by decide, rfl, by decide, rfl, rfl⟩

/-- C7: for every directory listing with pairwise distinct file names and every slug
among the paths of `getStaticPaths`, the other markdown files of the listing are one fewer
than its `n` markdown files, and `getStaticProps` returns props whose related posts are
the summaries of the first `min 3 (n - 1)` of those other files, in the order of the
listing. -/
theorem C7_related_first_three (host : Host) (libs : Libs) (dir : BlogDir) (slug : String)
    (hnd : (readdirSync dir).Nodup) (hs : slug ∈ (getStaticPaths dir).paths) :
    (dir.filter fun e => endsWithMd e.1 && e.1 != slug ++ ".md").length
      = ((readdirSync dir).filter endsWithMd).length - 1 ∧
    ∃ props, getStaticProps host libs dir slug = .ok props ∧
      props.relatedPosts
        = (((dir.filter fun e => endsWithMd e.1 && e.1 != slug ++ ".md").map
              fun e => mkSummary libs e.1 e.2).take
            (min 3 (((readdirSync dir).filter endsWithMd).length - 1))) ∧
      props.relatedPosts.length = min 3 (((readdirSync dir).filter endsWithMd).length - 1) := by
  have hmem : slug ++ ".md" ∈ readdirSync dir := (mem_paths_iff dir slug).1 hs
  have hmemf : slug ++ ".md" ∈ (readdirSync dir).filter endsWithMd :=
    List.mem_filter.2 ⟨hmem, endsWithMd_append_md slug⟩
  obtain ⟨c, hc⟩ := readFileSync_of_mem host hmem
  have hfiles : (readdirSync dir).filter endsWithMd
      = (dir.filter fun e => endsWithMd e.1).map Prod.fst := by
    simp only [readdirSync, List.filter_map]; rfl
  have hall := mapM_loadSummary_entries host libs dir hnd (dir.filter fun e => endsWithMd e.1)
    fun e he => (List.mem_filter.1 he).1
  rw [← hfiles] at hall
  have hfilter : (dir.filter fun e => endsWithMd e.1).filter (fun e => stripMd e.1 != slug)
      = dir.filter fun e => endsWithMd e.1 && e.1 != slug ++ ".md" := by
    rw [List.filter_filter]
    apply List.filter_congr
    intro e _
    by_cases hmd : endsWithMd e.1 = true
    · by_cases he : e.1 = slug ++ ".md"
      · simp [hmd, he, stripMd_append_md]
      · have : stripMd e.1 ≠ slug := by
          intro h
          exact he (by rw [← stripMd_spec hmd, h])
        have hb1 : (stripMd e.1 != slug) = true := bne_iff_ne.2 this
        have hb2 : (e.1 != slug ++ ".md") = true := bne_iff_ne.2 he
        simp [hmd, hb1, hb2]
    · simp [hmd]
  have hlen : (dir.filter fun e => endsWithMd e.1 && e.1 != slug ++ ".md").length
      = ((readdirSync dir).filter endsWithMd).length - 1 := by
    have h1 : ((readdirSync dir).filter endsWithMd).filter (· != slug ++ ".md")
        = (dir.filter fun e => endsWithMd e.1 && e.1 != slug ++ ".md").map Prod.fst := by
      rw [List.filter_filter]
      simp only [readdirSync, List.filter_map]
      congr 1
      apply List.filter_congr
      intro e _
      simp [Bool.and_comm]
    have h2 := (hnd.filter endsWithMd).erase_eq_filter (slug ++ ".md")
    rw [← List.length_erase_of_mem hmemf, h2, h1, List.length_map]
  have hrel : relatedPosts slug ((dir.filter fun e => endsWithMd e.1).map
        fun e => mkSummary libs e.1 e.2)
      = ((dir.filter fun e => endsWithMd e.1 && e.1 != slug ++ ".md").map
          fun e => mkSummary libs e.1 e.2).take 3 := by
    unfold relatedPosts
    rw [List.filter_map, ← hfilter]
    rfl
  refine ⟨hlen, _, getStaticProps_eq host libs dir slug c _ hc hall, ?_, ?_⟩
  · simp only [hrel]
    rw [← hlen, ← List.length_map _ (fun e => mkSummary libs e.1 e.2), take_min_length]
  · simp only [hrel]
    rw [List.length_take, List.length_map, hlen]

/-- Witness of C7 at the slug `c` of the sample directory. -/
theorem C7_related_first_three_witness :
    (readdirSync sampleDir).Nodup ∧ "c" ∈ (getStaticPaths sampleDir).paths ∧
    ((sampleDir.filter fun e => endsWithMd e.1 && e.1 != "c" ++ ".md").length
        = ((readdirSync sampleDir).filter endsWithMd).length - 1 ∧
      ∃ props, getStaticProps sampleHost sampleLibs sampleDir "c" = .ok props ∧
        props.relatedPosts
          = (((sampleDir.filter fun e => endsWithMd e.1 && e.1 != "c" ++ ".md").map
                fun e => mkSummary sampleLibs e.1 e.2).take
              (min 3 (((readdirSync sampleDir).filter endsWithMd).length - 1))) ∧
        props.relatedPosts.length
          = min 3 (((readdirSync sampleDir).filter endsWithMd).length - 1)) :=
  ⟨by decide, by decide,
    C7_related_first_three sampleHost sampleLibs sampleDir "c" (by decide) (by decide)⟩

/-! ## Reading statistics: claims -/

/-- C2, evaluated on the code: for the content `"<p>" + "word ".repeat(n) + "</p>"` the
component counts `n + 1` pieces, the text left after the tags being `n` words each
followed by a blank, so that `split` returns a last, empty piece.  For `n = 200` the word
count is 201 and the reading time 2 minutes, for `n = 201` they are 202 and 2, two
words split into `["word", "word", ""]`, and a paragraph of two words that ends in a line
break, as a markdown converter emits it, counts 3. -/
theorem C2_paragraph_word_count :
    (∀ n : ℕ, wordCount (some ("<p>" ++ jsRepeat "word " n ++ "</p>")) = n + 1) ∧
    wordCount (some ("<p>" ++ jsRepeat "word " 200 ++ "</p>")) = 201 ∧
    readingTime (wordCount (some ("<p>" ++ jsRepeat "word " 200 ++ "</p>"))) = 2 ∧
    wordCount (some ("<p>" ++ jsRepeat "word " 201 ++ "</p>")) = 202 ∧
    readingTime (wordCount (some ("<p>" ++ jsRepeat "word " 201 ++ "</p>"))) = 2 ∧
    splitWs (stripTags ("<p>" ++ jsRepeat "word " 2 ++ "</p>")) = ["word", "word", ""] ∧
    wordCount (some "<p>Hello world</p>\n") = 3 := by
  refine ⟨wordCount_paragraph, wordCount_paragraph 200, ?_, wordCount_paragraph 201, ?_,
    by decide, by decide⟩
  · rw [wordCount_paragraph 200, readingTime_eq (by norm_num)]
  · rw [wordCount_paragraph 201, readingTime_eq (by norm_num)]

/-- C3: for every `contentHtml` that is absent or a string of at most `2^53 - 1`
characters (the longest string the language allows), the reading time
`Math.ceil(wordCount / 200)`, computed with the binary64 division of the language, is the
exact ceiling of `wordCount / 200`, that is `(wordCount + 199) div 200`; and when
`contentHtml` is absent or empty, `wordCount` and the reading time are both 0. -/
theorem C3_reading_time_exact (contentHtml : Option String)
    (hlen : ∀ s, contentHtml = some s → s.length ≤ 2 ^ 53 - 1) :
    readingTime (wordCount contentHtml) = ⌈(wordCount contentHtml : ℚ) / 200⌉₊ ∧
    readingTime (wordCount contentHtml) = (wordCount contentHtml + 199) / 200 ∧
    (contentHtml = none ∨ contentHtml = some "" →
      wordCount contentHtml = 0 ∧ readingTime (wordCount contentHtml) = 0) := by
  have hw : wordCount contentHtml < 200 * 2 ^ 46 := by
    cases contentHtml with
    | none => simp [wordCount]
    | some s =>
      have h1 := wordCount_le s
      have h2 := hlen s rfl
      have h3 : (2 : ℕ) ^ 53 - 1 + 1 < 200 * 2 ^ 46 := by norm_num
      omega
  refine ⟨?_, readingTime_eq hw, ?_⟩
  · rw [readingTime_eq hw, natCeil_div_200]
  · intro h
    have h0 : wordCount contentHtml = 0 := by
      rcases h with rfl | rfl <;> rfl
    refine ⟨h0, ?_⟩
    rw [readingTime_eq hw, h0]

/-- Witness of C3 at a short paragraph. -/
theorem C3_reading_time_exact_witness :
    (∀ s, some "<p>Hello world</p>" = some s → s.length ≤ 2 ^ 53 - 1) ∧
    (readingTime (wordCount (some "<p>Hello world</p>"))
        = ⌈(wordCount (some "<p>Hello world</p>") : ℚ) / 200⌉₊ ∧
      readingTime (wordCount (some "<p>Hello world</p>"))
        = (wordCount (some "<p>Hello world</p>") + 199) / 200 ∧
      (some "<p>Hello world</p>" = none ∨ some "<p>Hello world</p>" = some "" →
        wordCount (some "<p>Hello world</p>") = 0 ∧
          readingTime (wordCount (some "<p>Hello world</p>")) = 0)) :=
  have h : ∀ s, some "<p>Hello world</p>" = some s → s.length ≤ 2 ^ 53 - 1 := by
    intro s hs
    cases hs
    decide
  ⟨h, C3_reading_time_exact (some "<p>Hello world</p>") h⟩

/-- C10: for every non-empty `contentHtml` the word count is at least 1, and so is the
reading time, also when no word is left after the tags are stripped: `"<p></p>"` counts
1 and a single blank counts 2, since `split` keeps the empty pieces before and after a
separator. -/
theorem C10_word_count_at_least_one (s : String) (h : s ≠ "") :
    1 ≤ wordCount (some s) ∧ 1 ≤ readingTime (wordCount (some s)) ∧
    wordCount (some "<p></p>") = 1 ∧ wordCount (some " ") = 2 ∧
    splitWs (stripTags "<p></p>") = [""] ∧ splitWs (stripTags " ") = ["", ""] :=
  ⟨wordCount_pos h, readingTime_pos (wordCount_pos h), by decide, by decide, by decide,
    by decide⟩

/-- Witness of C10 at content made of tags only. -/
theorem C10_word_count_at_least_one_witness :
    "<br><br>" ≠ "" ∧
    (1 ≤ wordCount (some "<br><br>") ∧ 1 ≤ readingTime (wordCount (some "<br><br>")) ∧
      wordCount (some "<p></p>") = 1 ∧ wordCount (some " ") = 2 ∧
      splitWs (stripTags "<p></p>") = [""] ∧ splitWs (stripTags " ") = ["", ""]) :=
  ⟨by decide, C10_word_count_at_least_one "<br><br>" (by decide)⟩

/-! ## Rendering: claims -/

theorem imageSrcs_coverImage (post : Post (Option String)) (cover : String) (h : cover ≠ "")
    (hc : post.cover = some cover) :
    imageSrcs (coverImage (some post)) = [resolveCoverUrl cover] := by
  have hb : (cover != "") = true := bne_iff_ne.2 h
  simp only [coverImage, Option.bind, hc, hb, if_true, resolveCoverUrl]
  by_cases h1 : startsWith cover "http" = true
  · simp [h1, el, imageSrcs, List.lookup]
  · by_cases h2 : startsWith cover "/" = true
    · simp [h1, h2, el, imageSrcs, List.lookup]
    · simp [h1, h2, el, imageSrcs, List.lookup]

theorem imageSrcs_relatedCover (relatedPost : PostSummary (Option String)) (cover : String) (h : cover ≠ "")
    (hc : relatedPost.cover = some cover) :
    imageSrcs (relatedCover relatedPost) = [resolveCoverUrl cover] := by
  have hb : (cover != "") = true := bne_iff_ne.2 h
  simp only [relatedCover, hc, hb, if_true, resolveCoverUrl]
  by_cases h1 : startsWith cover "http" = true
  · simp [h1, el, imageSrcs, List.lookup]
  · by_cases h2 : startsWith cover "/" = true
    · simp [h1, h2, el, imageSrcs, List.lookup]
    · simp [h1, h2, el, imageSrcs, List.lookup]

/-- C4: for every non-empty cover string, the `src` of the `<Image>` rendered for the
main post's cover and the `src` of the `<Image>` rendered for a related post's cover are
both the one of the specification's rule `resolveCoverUrl`: the cover itself when it
starts with `http`, else the cover itself when it starts with `/`, else `/images/blog/`
followed by the cover.  So `http://x/y.png` and `/a.png` are kept and `a.png` becomes
`/images/blog/a.png`. -/
theorem C4_cover_source (cover : String) (h : cover ≠ "") :
    (∀ post : Post (Option String), post.cover = some cover →
      imageSrcs (coverImage (some post)) = [resolveCoverUrl cover]) ∧
    (∀ relatedPost : PostSummary (Option String), relatedPost.cover = some cover →
      imageSrcs (relatedCover relatedPost) = [resolveCoverUrl cover]) ∧
    (startsWith cover "http" = true → resolveCoverUrl cover = cover) ∧
    (startsWith cover "http" = false → startsWith cover "/" = true →
      resolveCoverUrl cover = cover) ∧
    (startsWith cover "http" = false → startsWith cover "/" = false →
      resolveCoverUrl cover = "/images/blog/" ++ cover) ∧
    imageSrcs (coverImage (some { barePost with cover := some "http://x/y.png" }))
      = ["http://x/y.png"] ∧
    imageSrcs (coverImage (some { barePost with cover := some "/a.png" })) = ["/a.png"] ∧
    imageSrcs (coverImage (some { barePost with cover := some "a.png" }))
      = ["/images/blog/a.png"] ∧
    imageSrcs (relatedCover { bareSummary with cover := some "http://x/y.png" })
      = ["http://x/y.png"] ∧
    imageSrcs (relatedCover { bareSummary with cover := some "/a.png" }) = ["/a.png"] ∧
    imageSrcs (relatedCover { bareSummary with cover := some "a.png" })
      = ["/images/blog/a.png"] := by
  refine ⟨fun post hc => imageSrcs_coverImage post cover h hc,
    fun rp hc => imageSrcs_relatedCover rp cover h hc, ?_, ?_, ?_,
    by decide, by decide, by decide, by decide, by decide, by decide⟩
  · intro h1; simp [resolveCoverUrl, h1]
  · intro h1 h2; simp [resolveCoverUrl, h1, h2]
  · intro h1 h2; simp [resolveCoverUrl, h1, h2]

theorem imageSrcs_append (a b : List Markup) :
    imageSrcs (a ++ b) = imageSrcs a ++ imageSrcs b := by
  induction a with
  | nil => rfl
  | cons x xs ih =>
    cases x <;> simp [imageSrcs, ih]

theorem imageSrcs_el (tag : String) (props : List (String × String))
    (children : List Markup) (h : tag ≠ "Image") :
    imageSrcs (el tag props children) = imageSrcs children := by
  simp [el, imageSrcs, imageSrcs_append, h]

theorem imageSrcs_textChild (v : Option String) : imageSrcs (textChild v) = [] := by
  cases v with
  | none => rfl
  | some s =>
    simp only [textChild]
    split_ifs <;> rfl

theorem imageSrcs_flatten_nil (cards : List (List Markup))
    (h : ∀ c ∈ cards, imageSrcs c = []) : imageSrcs cards.flatten = [] := by
  induction cards with
  | nil => rfl
  | cons c cs ih =>
    rw [List.flatten_cons, imageSrcs_append, h c (List.mem_cons_self _ _),
      ih fun d hd => h d (List.mem_cons_of_mem _ hd)]
    rfl

theorem relatedCover_of_falsy {relatedPost : PostSummary (Option String)}
    (h : truthy relatedPost.cover = false) :
    relatedCover relatedPost = relatedCoverPlaceholder := by
  unfold relatedCover
  cases hc : relatedPost.cover with
  | none => rfl
  | some c =>
    rw [hc] at h
    simp only [truthy] at h
    simp [h]

theorem imageSrcs_relatedCardMarkup (relatedPost : PostSummary (Option String)) (dateText : Option String) :
    imageSrcs (relatedCardMarkup relatedPost dateText) = imageSrcs (relatedCover relatedPost) := by
  simp [relatedCardMarkup, imageSrcs_el, imageSrcs_append, imageSrcs_textChild, svgIcon]
  rfl

theorem postDateText_of_falsy (env : RenderEnv) {post : Post (Option String)} (h : truthy post.date = false) :
    postDateText env (some post) = .ok "No date" := by
  unfold postDateText
  cases hd : post.date with
  | none => simp [Option.bind, hd]; rfl
  | some d =>
    rw [hd] at h
    simp only [truthy] at h
    simp [Option.bind, hd, h]
    rfl

theorem mainContent_of_falsy {post : Post (Option String)} (h : truthy post.contentHtml = false) :
    mainContent (some post) = contentPlaceholder := by
  unfold mainContent
  cases hd : post.contentHtml with
  | none => simp [Option.bind, hd]
  | some d =>
    rw [hd] at h
    simp only [truthy] at h
    simp [Option.bind, hd, h]

theorem coverImage_of_falsy {post : Post (Option String)} (h : truthy post.cover = false) :
    coverImage (some post) = [] := by
  unfold coverImage
  cases hd : post.cover with
  | none => simp [Option.bind, hd]
  | some d =>
    rw [hd] at h
    simp only [truthy] at h
    simp [Option.bind, hd, h]

theorem categoryBadge_of_falsy {post : Post (Option String)} (h : truthy post.category = false) :
    categoryBadge (some post) = [] := by
  simp [categoryBadge, Option.bind, h]

theorem wordCount_of_falsy {v : Option String} (h : truthy v = false) : wordCount v = 0 := by
  cases v with
  | none => rfl
  | some s =>
    simp only [truthy] at h
    simp [wordCount, h]

theorem readingTime_zero : readingTime 0 = 0 := by
  rw [readingTime_eq (by norm_num)]

theorem relatedDateText_ok (env : RenderEnv) (relatedPost : PostSummary (Option String))
    (h : ∀ d, relatedPost.date = some d → d ≠ "" → ∃ t, env.formatDate d = .ok t) :
    ∃ dateText, relatedDateText env relatedPost = .ok dateText := by
  unfold relatedDateText
  cases hd : relatedPost.date with
  | none => exact ⟨none, rfl⟩
  | some d =>
    by_cases he : d = ""
    · subst he
      exact ⟨some "", rfl⟩
    · obtain ⟨t, ht⟩ := h d hd he
      have hb : (d != "") = true := bne_iff_ne.2 he
      refine ⟨some t, ?_⟩
      simp only [hb, if_true, ht]
      rfl

theorem occursIn_self (x : List Markup) : occursIn x x :=
  ⟨[], [], by simp⟩

theorem occursIn_append_left {x a : List Markup} (b : List Markup) (h : occursIn x a) :
    occursIn x (a ++ b) := by
  obtain ⟨pre, suf, rfl⟩ := h
  exact ⟨pre, suf ++ b, by simp [List.append_assoc]⟩

theorem occursIn_append_right {x b : List Markup} (a : List Markup) (h : occursIn x b) :
    occursIn x (a ++ b) := by
  obtain ⟨pre, suf, rfl⟩ := h
  exact ⟨a ++ pre, suf, by simp [List.append_assoc]⟩

theorem occursIn_cons {x a : List Markup} (t : Markup) (h : occursIn x a) :
    occursIn x (t :: a) :=
  occursIn_append_right [t] h

theorem occursIn_el {x children : List Markup} (tag : String) (props : List (String × String))
    (h : occursIn x children) : occursIn x (el tag props children) :=
  occursIn_cons _ (occursIn_append_left _ h)

theorem occursIn_flatten {x c : List Markup} {cards : List (List Markup)} (hc : c ∈ cards)
    (h : occursIn x c) : occursIn x cards.flatten := by
  obtain ⟨s, t, rfl⟩ := List.append_of_mem hc
  rw [List.flatten_append, List.flatten_cons]
  exact occursIn_append_right _ (occursIn_append_left _ h)

theorem count_gradientTag_el (tag : String) (props : List (String × String))
    (children : List Markup) :
    (el tag props children).count gradientTag
      = (if Markup.openTag tag props = gradientTag then 1 else 0)
        + children.count gradientTag := by
  have hclose : (Markup.closeTag tag == gradientTag) = false := by
    simp [gradientTag]
  rw [el, List.count_cons, List.count_append, List.count_singleton, hclose]
  by_cases h : Markup.openTag tag props = gradientTag
  · simp [h]; omega
  · have hb : (Markup.openTag tag props == gradientTag) = false := by simpa using h
    simp [h, hb]

theorem count_gradientTag_textChild (v : Option String) :
    (textChild v).count gradientTag = 0 := by
  cases v with
  | none => rfl
  | some s =>
    simp only [textChild]
    split_ifs
    · simp [gradientTag]
    · rfl

theorem count_gradientTag_svgIcon (className strokeWidth d : String) :
    (svgIcon className strokeWidth d).count gradientTag = 0 := by
  rw [svgIcon, count_gradientTag_el, count_gradientTag_el]
  simp [gradientTag]

theorem count_gradientTag_relatedCard (relatedPost : PostSummary (Option String)) (dateText : Option String)
    (h : truthy relatedPost.cover = false) :
    (relatedCardMarkup relatedPost dateText).count gradientTag = 1 := by
  have hph : relatedCoverPlaceholder.count gradientTag = 1 := by decide
  simp only [relatedCardMarkup, relatedCover_of_falsy h, count_gradientTag_el,
    List.count_append, count_gradientTag_textChild, count_gradientTag_svgIcon, hph,
    List.count_nil]
  simp [gradientTag]

theorem occursIn_relatedCard (relatedPost : PostSummary (Option String)) (dateText : Option String)
    (h : truthy relatedPost.cover = false) :
    occursIn
      ([Markup.openTag "div" [("key", relatedPost.slug), ("className", "group")],
          Markup.openTag "Link"
            [("href", "/blog/" ++ relatedPost.slug), ("className", "block h-full")],
          Markup.openTag "div"
            [("className", "bg-gray-800 border border-gray-700 rounded-2xl overflow-hidden h-full transform transition-all duration-300 hover:border-blue-500 hover:shadow-[0_8px_30px_rgba(59,130,246,0.3)]")],
          Markup.openTag "div" [("className", "relative h-48 w-full overflow-hidden")]] ++
        relatedCoverPlaceholder)
      (relatedCardMarkup relatedPost dateText) := by
  refine ⟨[], (relatedCardMarkup relatedPost dateText).drop 10, ?_⟩
  have htake : (relatedCardMarkup relatedPost dateText).take 10
      = [Markup.openTag "div" [("key", relatedPost.slug), ("className", "group")],
          Markup.openTag "Link"
            [("href", "/blog/" ++ relatedPost.slug), ("className", "block h-full")],
          Markup.openTag "div"
            [("className", "bg-gray-800 border border-gray-700 rounded-2xl overflow-hidden h-full transform transition-all duration-300 hover:border-blue-500 hover:shadow-[0_8px_30px_rgba(59,130,246,0.3)]")],
          Markup.openTag "div" [("className", "relative h-48 w-full overflow-hidden")]] ++
        relatedCoverPlaceholder := by
    simp only [relatedCardMarkup, relatedCover_of_falsy h]
    rfl
  rw [List.nil_append, ← htake, List.take_append_drop]

theorem mapM_relatedCard_ok (env : RenderEnv) (l : List (PostSummary (Option String)))
    (hrc : ∀ rp ∈ l, truthy rp.cover = false)
    (hrd : ∀ rp ∈ l, ∀ d, rp.date = some d → d ≠ "" → ∃ t, env.formatDate d = .ok t) :
    ∃ cards, l.mapM (relatedCard env) = .ok cards ∧
      List.Forall₂ (fun rp card => ∃ dt, card = relatedCardMarkup rp dt) l cards := by
  induction l with
  | nil => exact ⟨[], rfl, List.Forall₂.nil⟩
  | cons rp rps ih =>
    obtain ⟨cards, hc, hf⟩ := ih (fun r hr => hrc r (List.mem_cons_of_mem _ hr))
      (fun r hr => hrd r (List.mem_cons_of_mem _ hr))
    obtain ⟨dt, hdt⟩ := relatedDateText_ok env rp (hrd rp (List.mem_cons_self _ _))
    refine ⟨relatedCardMarkup rp dt :: cards, ?_, List.Forall₂.cons ⟨dt, rfl⟩ hf⟩
    rw [List.mapM_cons, hc]
    simp only [relatedCard, hdt]
    rfl

theorem cards_facts {l : List (PostSummary (Option String))} {cards : List (List Markup)}
    (hrc : ∀ rp ∈ l, truthy rp.cover = false)
    (hf : List.Forall₂ (fun rp card => ∃ dt, card = relatedCardMarkup rp dt) l cards) :
    imageSrcs cards.flatten = [] ∧ cards.flatten.count gradientTag = l.length ∧
      ∀ rp ∈ l, ∃ dt, relatedCardMarkup rp dt ∈ cards := by
  induction hf with
  | nil => exact ⟨rfl, rfl, by simp⟩
  | @cons rp card rps cs hcard _ ih =>
    obtain ⟨dt, rfl⟩ := hcard
    obtain ⟨h1, h2, h3⟩ := ih fun r hr => hrc r (List.mem_cons_of_mem _ hr)
    have hcov := hrc rp (List.mem_cons_self _ _)
    refine ⟨?_, ?_, ?_⟩
    · rw [List.flatten_cons, imageSrcs_append, h1, imageSrcs_relatedCardMarkup,
        relatedCover_of_falsy hcov]
      rfl
    · rw [List.flatten_cons, List.count_append, h2, count_gradientTag_relatedCard rp dt hcov,
        List.length_cons]
      omega
    · intro r hr
      rcases List.mem_cons.1 hr with rfl | hr
      · exact ⟨dt, List.mem_cons_self _ _⟩
      · obtain ⟨d, hd⟩ := h3 r hr
        exact ⟨d, List.mem_cons_of_mem _ hd⟩

theorem relatedSection_ok (env : RenderEnv) (related : List (PostSummary (Option String)))
    (hrc : ∀ rp ∈ related.take 3, truthy rp.cover = false)
    (hrd : ∀ rp ∈ related.take 3, ∀ d, rp.date = some d → d ≠ "" →
      ∃ t, env.formatDate d = .ok t) :
    ∃ rel, relatedSection env related = .ok rel ∧ imageSrcs rel = [] ∧
      rel.count gradientTag = (related.take 3).length ∧
      ∀ rp ∈ related.take 3,
        occursIn
          ([Markup.openTag "div" [("key", rp.slug), ("className", "group")],
              Markup.openTag "Link"
                [("href", "/blog/" ++ rp.slug), ("className", "block h-full")],
              Markup.openTag "div"
                [("className", "bg-gray-800 border border-gray-700 rounded-2xl overflow-hidden h-full transform transition-all duration-300 hover:border-blue-500 hover:shadow-[0_8px_30px_rgba(59,130,246,0.3)]")],
              Markup.openTag "div" [("className", "relative h-48 w-full overflow-hidden")]] ++
            relatedCoverPlaceholder)
          rel := by
  unfold relatedSection
  by_cases hlen : related.length > 0
  · obtain ⟨cards, hc, hf⟩ := mapM_relatedCard_ok env (related.take 3) hrc hrd
    obtain ⟨h1, h2, h3⟩ := cards_facts hrc hf
    refine ⟨relatedSectionMarkup cards, ?_, ?_, ?_, ?_⟩
    · rw [if_pos hlen, hc]
      rfl
    · simp [relatedSectionMarkup, imageSrcs_el, imageSrcs_append, h1, imageSrcs]
    · simp only [relatedSectionMarkup, count_gradientTag_el, List.count_append, h2]
      simp [gradientTag]
    · intro rp hrp
      obtain ⟨dt, hdt⟩ := h3 rp hrp
      exact occursIn_el _ _ (occursIn_append_right _ (occursIn_el _ _
        (occursIn_flatten hdt (occursIn_relatedCard rp dt (hrc rp hrp)))))
  · have h0 : related = [] := by
      cases related with
      | nil => rfl
      | cons a l => simp at hlen
    subst h0
    exact ⟨[], rfl, rfl, rfl, by simp⟩

theorem imageSrcs_page (env : RenderEnv) (article mainBody related : List Markup) :
    imageSrcs (page env article mainBody related)
      = imageSrcs article ++ imageSrcs mainBody ++ imageSrcs related := by
  simp [page, backToBlog, svgIcon, imageSrcs_el, imageSrcs_append, imageSrcs]

theorem imageSrcs_titleHeading (post : Option (Post (Option String))) : imageSrcs (titleHeading post) = [] := by
  simp [titleHeading, imageSrcs_el, imageSrcs_textChild]

theorem imageSrcs_metaInformation (dateText : String) (rt wc : ℕ) :
    imageSrcs (metaInformation dateText rt wc) = [] := by
  simp [metaInformation, svgIcon, imageSrcs_el, imageSrcs_append, imageSrcs_textChild,
    imageSrcs]

theorem imageSrcs_contentPlaceholder : imageSrcs contentPlaceholder = [] := by
  decide

theorem prose_tag_ne_gradientTag (stylesProse : String) :
    Markup.openTag "div"
        [("className", "prose prose-lg max-w-none prose-invert " ++ stylesProse)]
      ≠ gradientTag := by
  intro h
  simp only [gradientTag, Markup.openTag.injEq, List.cons.injEq, Prod.mk.injEq, true_and,
    and_true] at h
  have hd := congrArg String.data h
  rw [String.data_append] at hd
  exact absurd hd (by simp)

theorem count_gradientTag_page (env : RenderEnv) (article mainBody related : List Markup) :
    (page env article mainBody related).count gradientTag
      = article.count gradientTag + mainBody.count gradientTag
        + related.count gradientTag := by
  have hback : backToBlog.count gradientTag = 0 := by decide
  simp only [page, count_gradientTag_el, List.count_append, hback,
    if_neg (prose_tag_ne_gradientTag env.stylesProse), List.count_nil]
  simp [gradientTag]

theorem count_gradientTag_titleHeading (post : Option (Post (Option String))) :
    (titleHeading post).count gradientTag = 0 := by
  rw [titleHeading, count_gradientTag_el, count_gradientTag_textChild]
  simp [gradientTag]

theorem count_gradientTag_metaInformation (dateText : String) (rt wc : ℕ) :
    (metaInformation dateText rt wc).count gradientTag = 0 := by
  simp only [metaInformation, count_gradientTag_el, List.count_append,
    count_gradientTag_textChild, count_gradientTag_svgIcon]
  simp [gradientTag]

theorem occursIn_page {x related : List Markup} (env : RenderEnv)
    (article mainBody : List Markup) (h : occursIn x related) :
    occursIn x (page env article mainBody related) :=
  occursIn_el _ _ (occursIn_append_left _ (occursIn_append_right _ (occursIn_el _ _
    (occursIn_el _ _ (occursIn_append_right _ h)))))

theorem occursIn_page_article {x article : List Markup} (env : RenderEnv)
    (mainBody related : List Markup) (h : occursIn x article) :
    occursIn x (page env article mainBody related) :=
  occursIn_el _ _ (occursIn_append_left _ (occursIn_append_right _ (occursIn_el _ _
    (occursIn_el _ _ (occursIn_append_left _ (occursIn_append_left _
      (occursIn_append_right _ (occursIn_el _ _ h))))))))

theorem occursIn_metaInformation_readingTime (dateText : String) (rt wc : ℕ) :
    occursIn [Markup.text (toString rt), Markup.text " min read"]
      (metaInformation dateText rt wc) := by
  unfold metaInformation
  exact occursIn_el _ _ (occursIn_append_left _ (occursIn_append_right _
    (occursIn_el _ _ (occursIn_append_right _ (occursIn_el _ _ (occursIn_self _))))))

theorem occursIn_metaInformation_wordCount (dateText : String) (rt wc : ℕ) :
    occursIn [Markup.text (toString wc), Markup.text " words"]
      (metaInformation dateText rt wc) := by
  unfold metaInformation
  exact occursIn_el _ _ (occursIn_append_right _
    (occursIn_el _ _ (occursIn_append_right _ (occursIn_el _ _ (occursIn_self _)))))

/-- C8, as the code has it: for every post whose category, cover, date and content HTML
are absent or empty, and every list of related posts in which the first three have no
cover and a date that is absent, empty or accepted by the date formatter, the component
returns a rendering.  Its `<article>` holds the title and the meta line only, so the
category badge and the cover block are left out with nothing in their place; the date
reads `No date`, the meta line shows `0 min read` and `0 words`, the body is the
`Content not available` block, and the page has no `<Image>`.  The card of each rendered related post opens with its four
enclosing elements followed at once by the gradient block with its icon, and the page
holds as many gradient blocks as it renders related posts. -/
theorem C8_render_absent_fields (env : RenderEnv) (post : Post (Option String))
    (related : List (PostSummary (Option String)))
    (hcat : truthy post.category = false) (hcov : truthy post.cover = false)
    (hdate : truthy post.date = false) (hhtml : truthy post.contentHtml = false)
    (hrc : ∀ rp ∈ related.take 3, truthy rp.cover = false)
    (hrd : ∀ rp ∈ related.take 3, ∀ d, rp.date = some d → d ≠ "" →
      ∃ t, env.formatDate d = .ok t) :
    ∃ rel out, relatedSection env related = .ok rel ∧
      BlogPost env (some post) related = .ok out ∧
      out = page env (titleHeading (some post) ++ metaInformation "No date" 0 0)
        contentPlaceholder rel ∧
      Markup.text "No date" ∈ out ∧
      Markup.text "Content not available" ∈ out ∧
      occursIn [Markup.text "0", Markup.text " min read"] out ∧
      occursIn [Markup.text "0", Markup.text " words"] out ∧
      imageSrcs out = [] ∧
      categoryBadge (some post) = [] ∧
      coverImage (some post) = [] ∧
      (∀ rp ∈ related.take 3, relatedCover rp = relatedCoverPlaceholder) ∧
      out.count
          (Markup.openTag "div"
            [("className", "w-full h-full bg-gradient-to-br from-blue-500/20 to-blue-600/20 flex items-center justify-center")])
        = (related.take 3).length ∧
      ∀ rp ∈ related.take 3,
        occursIn
          [Markup.openTag "div" [("key", rp.slug), ("className", "group")],
            Markup.openTag "Link" [("href", "/blog/" ++ rp.slug), ("className", "block h-full")],
            Markup.openTag "div"
              [("className", "bg-gray-800 border border-gray-700 rounded-2xl overflow-hidden h-full transform transition-all duration-300 hover:border-blue-500 hover:shadow-[0_8px_30px_rgba(59,130,246,0.3)]")],
            Markup.openTag "div" [("className", "relative h-48 w-full overflow-hidden")],
            Markup.openTag "div"
              [("className", "w-full h-full bg-gradient-to-br from-blue-500/20 to-blue-600/20 flex items-center justify-center")],
            Markup.openTag "svg"
              [("className", "w-12 h-12 text-blue-400/30"), ("fill", "none"),
                ("viewBox", "0 0 24 24"), ("stroke", "currentColor")],
            Markup.openTag "path"
              [("strokeLinecap", "round"), ("strokeLinejoin", "round"), ("strokeWidth", "1"),
                ("d", "M19 20H5a2 2 0 01-2-2V6a2 2 0 012-2h10a2 2 0 012 2v1m2 13a2 2 0 01-2-2V7m2 13a2 2 0 002-2V9a2 2 0 00-2-2h-2m-4-3H9M7 16h6M7 8h6v4H7V8z")],
            Markup.closeTag "path", Markup.closeTag "svg", Markup.closeTag "div"]
          out := by
  obtain ⟨rel, hrel, hsrc, hcount, hocc⟩ := relatedSection_ok env related hrc hrd
  refine ⟨rel, _, hrel, ?_, rfl, ?_, ?_,
    occursIn_page_article env _ _ (occursIn_append_right _
      (occursIn_metaInformation_readingTime "No date" 0 0)),
    occursIn_page_article env _ _ (occursIn_append_right _
      (occursIn_metaInformation_wordCount "No date" 0 0)),
    ?_, categoryBadge_of_falsy hcat,
    coverImage_of_falsy hcov, fun rp hrp => relatedCover_of_falsy (hrc rp hrp), ?_, ?_⟩
  · unfold BlogPost
    rw [postDateText_of_falsy env hdate, hrel]
    have hwc : wordCount ((some post).bind (·.contentHtml)) = 0 := wordCount_of_falsy hhtml
    simp only [hwc, readingTime_zero, categoryBadge_of_falsy hcat, coverImage_of_falsy hcov,
      mainContent_of_falsy hhtml, List.nil_append, List.append_assoc, List.append_nil]
    rfl
  · simp [page, el, metaInformation, textChild]
  · simp [page, el, contentPlaceholder]
  · rw [imageSrcs_page, imageSrcs_append, imageSrcs_titleHeading, imageSrcs_metaInformation,
      imageSrcs_contentPlaceholder, hsrc]
    rfl
  · have hph : contentPlaceholder.count gradientTag = 0 := by decide
    show (page env _ _ rel).count gradientTag = _
    rw [count_gradientTag_page, List.count_append, count_gradientTag_titleHeading,
      count_gradientTag_metaInformation, hph, hcount]
    omega
  · intro rp hrp
    exact occursIn_page env _ _ (hocc rp hrp)

/-- Witness of C4 at a bare file name. -/
theorem C4_cover_source_witness :
    "hero.png" ≠ "" ∧
    ((∀ post : Post (Option String), post.cover = some "hero.png" →
        imageSrcs (coverImage (some post)) = [resolveCoverUrl "hero.png"]) ∧
      (∀ relatedPost : PostSummary (Option String), relatedPost.cover = some "hero.png" →
        imageSrcs (relatedCover relatedPost) = [resolveCoverUrl "hero.png"]) ∧
      (startsWith "hero.png" "http" = true → resolveCoverUrl "hero.png" = "hero.png") ∧
      (startsWith "hero.png" "http" = false → startsWith "hero.png" "/" = true →
        resolveCoverUrl "hero.png" = "hero.png") ∧
      (startsWith "hero.png" "http" = false → startsWith "hero.png" "/" = false →
        resolveCoverUrl "hero.png" = "/images/blog/" ++ "hero.png") ∧
      imageSrcs (coverImage (some { barePost with cover := some "http://x/y.png" }))
        = ["http://x/y.png"] ∧
      imageSrcs (coverImage (some { barePost with cover := some "/a.png" })) = ["/a.png"] ∧
      imageSrcs (coverImage (some { barePost with cover := some "a.png" }))
        = ["/images/blog/a.png"] ∧
      imageSrcs (relatedCover { bareSummary with cover := some "http://x/y.png" })
        = ["http://x/y.png"] ∧
      imageSrcs (relatedCover { bareSummary with cover := some "/a.png" }) = ["/a.png"] ∧
      imageSrcs (relatedCover { bareSummary with cover := some "a.png" })
        = ["/images/blog/a.png"]) :=
  ⟨by decide, C4_cover_source "hero.png" (by decide)⟩

/-- Witness of C8 at the bare post with two related posts, one undated and one whose
date the formatter accepts. -/
theorem C8_render_absent_fields_witness :
    truthy barePost.category = false ∧ truthy barePost.cover = false ∧
    truthy barePost.date = false ∧ truthy barePost.contentHtml = false ∧
    (∀ rp ∈ [bareSummary, datedSummary].take 3, truthy rp.cover = false) ∧
    (∀ rp ∈ [bareSummary, datedSummary].take 3, ∀ d, rp.date = some d → d ≠ "" →
      ∃ t, sampleEnv.formatDate d = .ok t) ∧
    ∃ rel out, relatedSection sampleEnv [bareSummary, datedSummary] = .ok rel ∧
      BlogPost sampleEnv (some barePost) [bareSummary, datedSummary] = .ok out ∧
      out = page sampleEnv (titleHeading (some barePost) ++ metaInformation "No date" 0 0)
        contentPlaceholder rel ∧
      Markup.text "No date" ∈ out ∧
      Markup.text "Content not available" ∈ out ∧
      occursIn [Markup.text "0", Markup.text " min read"] out ∧
      occursIn [Markup.text "0", Markup.text " words"] out ∧
      imageSrcs out = [] ∧
      categoryBadge (some barePost) = [] ∧
      coverImage (some barePost) = [] ∧
      (∀ rp ∈ [bareSummary, datedSummary].take 3, relatedCover rp = relatedCoverPlaceholder) ∧
      out.count
          (Markup.openTag "div"
            [("className", "w-full h-full bg-gradient-to-br from-blue-500/20 to-blue-600/20 flex items-center justify-center")])
        = ([bareSummary, datedSummary].take 3).length ∧
      ∀ rp ∈ [bareSummary, datedSummary].take 3,
        occursIn
          [Markup.openTag "div" [("key", rp.slug), ("className", "group")],
            Markup.openTag "Link" [("href", "/blog/" ++ rp.slug), ("className", "block h-full")],
            Markup.openTag "div"
              [("className", "bg-gray-800 border border-gray-700 rounded-2xl overflow-hidden h-full transform transition-all duration-300 hover:border-blue-500 hover:shadow-[0_8px_30px_rgba(59,130,246,0.3)]")],
            Markup.openTag "div" [("className", "relative h-48 w-full overflow-hidden")],
            Markup.openTag "div"
              [("className", "w-full h-full bg-gradient-to-br from-blue-500/20 to-blue-600/20 flex items-center justify-center")],
            Markup.openTag "svg"
              [("className", "w-12 h-12 text-blue-400/30"), ("fill", "none"),
                ("viewBox", "0 0 24 24"), ("stroke", "currentColor")],
            Markup.openTag "path"
              [("strokeLinecap", "round"), ("strokeLinejoin", "round"), ("strokeWidth", "1"),
                ("d", "M19 20H5a2 2 0 01-2-2V6a2 2 0 012-2h10a2 2 0 012 2v1m2 13a2 2 0 01-2-2V7m2 13a2 2 0 002-2V9a2 2 0 00-2-2h-2m-4-3H9M7 16h6M7 8h6v4H7V8z")],
            Markup.closeTag "path", Markup.closeTag "svg", Markup.closeTag "div"]
          out :=
  have hrd : ∀ rp ∈ [bareSummary, datedSummary].take 3, ∀ d, rp.date = some d → d ≠ "" →
      ∃ t, sampleEnv.formatDate d = .ok t := by
    intro rp hrp d hd hne
    simp only [List.take, List.mem_cons, List.mem_singleton, List.not_mem_nil, or_false]
      at hrp
    rcases hrp with rfl | rfl
    · cases hd
      exact absurd rfl hne
    · cases hd
      exact ⟨"Jan 15, 2024", rfl⟩
  ⟨by decide, by decide, by decide, by decide, by decide, hrd,
    C8_render_absent_fields sampleEnv barePost [bareSummary, datedSummary] (by decide)
      (by decide) (by decide) (by decide) (by decide) hrd⟩

/-- C8 as stated fails: the bare post has no category and no cover, and its rendering has
nothing in their place, the `<article>` holding the title and the meta line only; and with
a related post that has no cover but a date the formatter rejects, the component throws
instead of rendering. -/
theorem C8_placeholder_counterexample :
    barePost.category = none ∧ barePost.cover = none ∧
    categoryBadge (some barePost) = [] ∧ coverImage (some barePost) = [] ∧
    BlogPost sampleEnv (some barePost) []
      = .ok (page sampleEnv (titleHeading (some barePost) ++ metaInformation "No date" 0 0)
          contentPlaceholder []) ∧
    undatedSummary.cover = none ∧
    BlogPost sampleEnv (some barePost) [undatedSummary] = .error (.invalidDate "soon") := by
  refine ⟨rfl, rfl, rfl, rfl, ?_, rfl, ?_⟩
  · unfold BlogPost
    have hwc : wordCount ((some barePost).bind (·.contentHtml)) = 0 := rfl
    simp only [hwc, readingTime_zero]
    rfl
  · unfold BlogPost
    have hwc : wordCount ((some barePost).bind (·.contentHtml)) = 0 := rfl
    simp only [hwc, readingTime_zero]
    rfl

end Blog
